import Mathlib

/-!
Verification development for the streaming variable-response decoder
(`paddle/fluid/operators/detail/variable_response.cc`).

The decoder is shallowly embedded over byte lists (`List Nat`, each entry a
byte value).  The protobuf `CodedInputStream` primitives used by the source
(`ReadTagWithCutoff(127)`, `ReadVarint64`, `ReadVarint32`,
`ReadVarintSizeAsInt`, `ReadString`, `GetDirectBufferPointer`/`Skip`, and the
push/pop limit discipline of `IncrementRecursionDepthAndPushLimit` /
`DecrementRecursionDepthAndPopLimit`) are modelled explicitly; the byte source
is modelled as a single contiguous chunk, so `GetDirectBufferPointer` yields
the whole remaining suffix.  Machine integers are modelled as `Nat`/`Int` with
explicit `% 2 ^ w` where the C++ code truncates.
-/

namespace VarResp

/-- INT_MAX of the 32-bit `int` used by `ReadVarintSizeAsInt`. -/
def INTMAX : Nat := 2 ^ 31 - 1

/-- Core varint reader: little-endian base-128 groups, continuation bit 0x80,
consuming at most `m` bytes (protobuf reads at most 10 bytes of a varint).
Returns the raw (untruncated) accumulated value and the remaining bytes. -/
def ReadVarintLoop : List Nat → Nat → Option (Nat × List Nat)
  | _, 0 => none
  | [], _ + 1 => none
  | b :: bs, m + 1 =>
    if b < 128 then some (b, bs)
    else
      match ReadVarintLoop bs m with
      | none => none
      | some (v, rest) => some (b % 128 + 128 * v, rest)

/-- `CodedInputStream::ReadVarint64`: up to 10 bytes, value in a `uint64`. -/
def ReadVarint64 (bytes : List Nat) : Option (Nat × List Nat) :=
  match ReadVarintLoop bytes 10 with
  | none => none
  | some (v, rest) => some (v % 2 ^ 64, rest)

/-- `CodedInputStream::ReadVarint32`: reads a full varint (up to 10 bytes) and
truncates the value to 32 bits. -/
def ReadVarint32 (bytes : List Nat) : Option (Nat × List Nat) :=
  match ReadVarintLoop bytes 10 with
  | none => none
  | some (v, rest) => some (v % 2 ^ 32, rest)

/-- `ReadVarintSizeAsInt` (both the local helper in the source and the
`CodedInputStream` member): reads a varint and succeeds iff it fits a signed
32-bit `int`.  The second component is the cursor position afterwards (the
varint is consumed even when the value is out of range). -/
def ReadVarintSizeAsInt (bytes : List Nat) : Option Nat × List Nat :=
  match ReadVarint64 bytes with
  | none => (none, bytes)
  | some (v, rest) => (if v ≤ INTMAX then some v else none, rest)

/-- Result of `ReadTagWithCutoff(127)`.  `ok` mirrors the `bool` of the
returned pair (`1 ≤ tag ≤ cutoff`); `atEnd` records whether the tag read
failed with no byte available at all, which is exactly the situation in which
protobuf sets `legitimate_message_end_` (hitting a pushed limit or the real
end of the stream, as opposed to parsing an explicit zero tag or failing in
the middle of a tag varint). -/
structure TagRes where
  tag : Nat
  ok : Bool
  atEnd : Bool
  rest : List Nat
deriving Repr, DecidableEq

/-- `CodedInputStream::ReadTagWithCutoff(127)` over the byte list. -/
def ReadTagWithCutoff127 (bytes : List Nat) : TagRes :=
  match ReadVarintLoop bytes 10 with
  | none => ⟨0, false, bytes.isEmpty, bytes⟩
  | some (v, rest) =>
    let t := v % 2 ^ 32
    ⟨t, decide (1 ≤ t ∧ t ≤ 127), false, rest⟩

/-- `CodedInputStream::ReadString`: exactly `n` bytes, failing on shortage. -/
def ReadString (n : Nat) (bytes : List Nat) : Option (List Nat × List Nat) :=
  if n ≤ bytes.length then some (bytes.take n, bytes.drop n) else none

/-- The packed-block loops of the source (`for (int i = 0; i < length; i++)
ReadVarint64`) read a fixed COUNT of varints.  Returns the values read so far
(they are appended to the metadata even when a later read fails), the cursor
position reached, and whether all `n` reads succeeded. -/
def ReadNVarints : Nat → List Nat → List Nat × List Nat × Bool
  | 0, bytes => ([], bytes, true)
  | n + 1, bytes =>
    match ReadVarint64 bytes with
    | none => ([], bytes, false)
    | some (v, r) =>
      match ReadNVarints n r with
      | (vs, rest, okv) => (v :: vs, rest, okv)

/-! ### Wire-format encoders (section 6 of the specification)

The encoders are written from the specification's wire format: each field is
a varint tag `(fieldNumber <<< 3) ||| wireType` followed by its value; a
length-delimited field carries a varint byte length.  A packed repeated block
is a single length-delimited block of concatenated varints, its declared
length being the BYTE length of the block. -/

/-- Minimal varint encoding, fuelled (10 groups cover all 64-bit values). -/
def encVarintF : Nat → Nat → List Nat
  | 0, v => [v % 128]
  | f + 1, v => if v < 128 then [v] else (v % 128 + 128) :: encVarintF f (v / 128)

/-- Varint encoding of a value below `2 ^ 64`. -/
def encVarint (v : Nat) : List Nat := encVarintF 10 v

/-- Field 1 `varname`, wire type 2: tag byte 10. -/
def encVarname (name : List Nat) : List Nat := 10 :: (encVarint name.length ++ name)

/-- Field 2 `type`, wire type 0: tag byte 16. -/
def encType (v : Nat) : List Nat := 16 :: encVarint v

/-- Field 3 `data_type`, wire type 0: tag byte 24. -/
def encDataType (v : Nat) : List Nat := 24 :: encVarint v

/-- Field 4 `dims`, unpacked: one varint field (tag byte 32) per dimension. -/
def encDimsUnpacked (ds : List Nat) : List Nat :=
  ds.foldr (fun d a => 32 :: (encVarint d ++ a)) []

/-- Concatenated varints of the dims values (a packed block's payload). -/
def dimsInner (ds : List Nat) : List Nat := ds.foldr (fun d a => encVarint d ++ a) []

/-- Field 4 `dims`, packed: tag byte 34, declared byte length, block. -/
def encDimsPacked (ds : List Nat) : List Nat :=
  34 :: (encVarint (dimsInner ds).length ++ dimsInner ds)

/-- Field 5 `lod_level`, wire type 0: tag byte 40. -/
def encLodLevel (v : Nat) : List Nat := 40 :: encVarint v

/-- Body of one `lod` sub-message with unpacked `lod_data` entries
(inner field 1, wire type 0: tag byte 8). -/
def lodBodyUnpacked (vs : List Nat) : List Nat :=
  vs.foldr (fun v a => 8 :: (encVarint v ++ a)) []

/-- Concatenated varints of one level's values. -/
def lodInner (vs : List Nat) : List Nat := vs.foldr (fun v a => encVarint v ++ a) []

/-- Body of one `lod` sub-message with a packed `lod_data` block
(inner field 1, wire type 2: tag byte 10, declared byte length, block). -/
def lodBodyPacked (vs : List Nat) : List Nat :=
  10 :: (encVarint (lodInner vs).length ++ lodInner vs)

/-- Field 6 `lod`, wire type 2 (tag byte 50), unpacked body. -/
def encLodUnpacked (vs : List Nat) : List Nat :=
  50 :: (encVarint (lodBodyUnpacked vs).length ++ lodBodyUnpacked vs)

/-- Field 6 `lod`, wire type 2 (tag byte 50), packed body. -/
def encLodPacked (vs : List Nat) : List Nat :=
  50 :: (encVarint (lodBodyPacked vs).length ++ lodBodyPacked vs)

/-- All `lod` fields of a message, one per offset-table level, in order. -/
def encLods (packLod : Bool) (lods : List (List Nat)) : List Nat :=
  lods.foldr (fun vs a => (if packLod then encLodPacked vs else encLodUnpacked vs) ++ a) []

/-- Field 7 `serialized`, wire type 2: tag byte 58, declared length, payload. -/
def encSerialized (p : List Nat) : List Nat := 58 :: (encVarint p.length ++ p)

/-- All metadata fields of a message, in the canonical order of section 6. -/
def encodeMeta (packDims packLod : Bool) (name : List Nat) (ty dt : Nat)
    (ds : List Nat) (lods : List (List Nat)) : List Nat :=
  encVarname name ++ encType ty ++ encDataType dt ++
    (if packDims then encDimsPacked ds else encDimsUnpacked ds) ++
    encLodLevel lods.length ++ encLods packLod lods

/-- A complete wire message: metadata followed by the payload field. -/
def encodeMsg (packDims packLod : Bool) (name : List Nat) (ty dt : Nat)
    (ds : List Nat) (lods : List (List Nat)) (payload : List Nat) : List Nat :=
  encodeMeta packDims packLod name ty dt ds lods ++ encSerialized payload

/-! ### Data model -/

/-- The metadata accumulated in `meta_` (a `sendrecv::VariableMessage`).
Protobuf scalar fields hold their last set value and default to zero/empty;
`typeRaw` and `dataType` store the 32-bit enum value the setters truncate to,
`dims` entries and `lodLevel` store raw 64-bit values. -/
structure VarMeta where
  varname : List Nat := []
  typeRaw : Nat := 0
  dataType : Nat := 0
  dims : List Nat := []
  lodLevel : Nat := 0
  lod : List (List Nat) := []
deriving Repr, DecidableEq

/-- Two's-complement reinterpretation of a raw 64-bit value as `int64_t`. -/
def toI64 (v : Nat) : Int :=
  if v % 2 ^ 64 < 2 ^ 63 then ((v % 2 ^ 64 : Nat) : Int)
  else ((v % 2 ^ 64 : Nat) : Int) - 2 ^ 64

/-- The `int64_t` → `int` narrowing performed by `GetDims` when it copies
`meta_.dims()` into a `std::vector<int>`. -/
def i64ToI32 (v : Nat) : Int :=
  if v % 2 ^ 32 < 2 ^ 31 then ((v % 2 ^ 32 : Nat) : Int)
  else ((v % 2 ^ 32 : Nat) : Int) - 2 ^ 32

/-- Destination `LoDTensor`: shape after `Resize`, attached offset table,
and the raw bytes written through `ReadRaw`. -/
structure LodTensor where
  dims : List Int
  lod : List (List Nat)
  data : List Nat
deriving Repr, DecidableEq

/-- Destination value tensor of a `SelectedRows`. -/
structure SlrValue where
  dims : List Int
  data : List Nat
deriving Repr, DecidableEq

/-- Events recorded by the `ReadRaw` chunk loop: a host-to-host copy, a
host-to-device copy issued on the device stream, and the explicit device
synchronization `gpu_dev_ctx.Wait()`. -/
inductive CopyEvent where
  | hostCopy (n : Nat)
  | h2dCopy (n : Nat)
  | deviceWait
deriving Repr, DecidableEq

/-- Decoder state: the variable table (`scope_`, a set of known names), the
device-context place, the metadata being accumulated, and the externally owned
destinations written so far. -/
structure PState where
  scope : List (List Nat)
  gpu : Bool
  meta : VarMeta := {}
  dense : Option LodTensor := none
  slrVal : Option SlrValue := none
  slrRows : Option (List Nat) := none
deriving Repr, DecidableEq

/-- Fresh state for one decode. -/
def initSt (scope : List (List Nat)) (gpu : Bool) : PState :=
  { scope := scope, gpu := gpu }

/-- Terminal outcome of `Parse`: `ok c` is the `int` return value (0 success,
-1 unknown field, a positive field number for a malformed field), `fatal` is a
`PADDLE_ENFORCE`/`PADDLE_THROW` abort, `crash` is the undefined behaviour of
dereferencing the null result of a failed `scope_->FindVar`. -/
inductive POutcome where
  | ok (code : Int)
  | fatal
  | crash
deriving Repr, DecidableEq

/-! ### ReadRaw and the copy helpers -/

/-- Result of `ReadRaw`: the boolean return, the bytes written to the
destination, the cursor afterwards, and the ordered event trace of the copy
loop. -/
structure RawRes where
  ok : Bool
  written : List Nat
  rest : List Nat
  trace : List CopyEvent
deriving Repr, DecidableEq

/-- `ReadRaw` over a single-chunk source: `GetDirectBufferPointer` yields the
whole remaining suffix (failing only when it is empty) and the loop copies the
WHOLE chunk (`size_to_write`) even when that exceeds `size`, then decrements
`size` and skips.  On the GPU path every chunk is issued as an asynchronous
host-to-device copy and `gpu_dev_ctx.Wait()` runs after the loop, before the
successful return; the failure return inside the loop does not wait. -/
def ReadRaw (gpu : Bool) (bytes : List Nat) (size : Int) : RawRes :=
  if gpu then
    if size ≤ 0 then ⟨true, [], bytes, [.deviceWait]⟩
    else
      match bytes with
      | [] => ⟨false, [], [], []⟩
      | b :: bs =>
        if size - ((b :: bs : List Nat).length : Int) > 0 then
          ⟨false, b :: bs, [], [.h2dCopy (b :: bs : List Nat).length]⟩
        else
          ⟨true, b :: bs, [], [.h2dCopy (b :: bs : List Nat).length, .deviceWait]⟩
  else
    if size ≤ 0 then ⟨true, [], bytes, []⟩
    else
      match bytes with
      | [] => ⟨false, [], [], []⟩
      | b :: bs =>
        if size - ((b :: bs : List Nat).length : Int) > 0 then
          ⟨false, b :: bs, [], [.hostCopy (b :: bs : List Nat).length]⟩
        else
          ⟨true, b :: bs, [], [.hostCopy (b :: bs : List Nat).length]⟩

/-- Modelled from the spec: `ToTypeIndex` (in `sendrecvop_utils.h`, not under
`src/`) maps an element-type code of the metadata enum to a scalar type and
aborts with `PADDLE_THROW` outside the enum; the specification's data model
gives the enum as a small closed set of codes (modelled as `0 ≤ t ≤ 6`,
BOOL, INT16, INT32, INT64, FP16, FP32, FP64). -/
def ToTypeIndexOk (t : Nat) : Bool := t ≤ 6

/-- Modelled from the spec: byte width of each element-type code (the scalar
representation named by the data model, e.g. 32-bit float), used only to
phrase the shape-times-element-size byte count; the mapping itself lives
outside `src/`. -/
def elemSize : Nat → Nat
  | 0 => 1
  | 1 => 2
  | 2 => 4
  | 3 => 8
  | 4 => 2
  | 5 => 4
  | 6 => 8
  | _ => 0

/-- Result of the three copy helpers: `crashRes` for a null `FindVar`
dereference or an out-of-range repeated-field access, `fatalRes` for a
`PADDLE_THROW` in `ToTypeIndex`, `failRes` for a `false` return (the partially
written destination is recorded), `okRes` for success. -/
inductive CopyRes where
  | crashRes
  | fatalRes
  | failRes (st : PState)
  | okRes (st : PState) (rest : List Nat)
deriving Repr, DecidableEq

/-- `VariableResponse::CopyLodTensorData`: resolve `meta_.varname()` in the
scope (no null check in the source: a missing name is a crash), `Resize` to
the narrowed dims, build the `LoD` from `meta_.lod(i)` for
`0 ≤ i < meta_.lod_level()` (protobuf index CHECK: out-of-range access
aborts), allocate through `ToTypeIndex`, then `ReadRaw` `length` bytes. -/
def CopyLodTensorData (st : PState) (length : Nat) (bytes : List Nat) : CopyRes :=
  if st.meta.varname ∈ st.scope then
    if st.meta.lod.length < (toI64 st.meta.lodLevel).toNat then .crashRes
    else
      if ToTypeIndexOk st.meta.dataType then
        let r := ReadRaw st.gpu bytes (length : Int)
        let st' := { st with dense := some ⟨st.meta.dims.map i64ToI32,
          st.meta.lod.take (toI64 st.meta.lodLevel).toNat, r.written⟩ }
        if r.ok then .okRes st' r.rest else .failRes st'
      else .fatalRes
  else .crashRes

/-- `VariableResponse::CopySelectRowsTensorData`: like the dense path but for
the `SelectedRows` value tensor, with no offset-table handling. -/
def CopySelectRowsTensorData (st : PState) (length : Nat) (bytes : List Nat) : CopyRes :=
  if st.meta.varname ∈ st.scope then
    if ToTypeIndexOk st.meta.dataType then
      let r := ReadRaw st.gpu bytes (length : Int)
      let st' := { st with slrVal := some ⟨st.meta.dims.map i64ToI32, r.written⟩ }
      if r.ok then .okRes st' r.rest else .failRes st'
    else .fatalRes
  else .crashRes

/-- `VariableResponse::CopySelectRowsData`: the row-index bytes are always
copied to host memory (`platform::CPUPlace`). -/
def CopySelectRowsData (st : PState) (length : Nat) (bytes : List Nat) : CopyRes :=
  if st.meta.varname ∈ st.scope then
    let r := ReadRaw false bytes (length : Int)
    let st' := { st with slrRows := some r.written }
    if r.ok then .okRes st' r.rest else .failRes st'
  else .crashRes

/-! ### ParseLodData -/

/-- `ParseLodData` over the sub-region delimited by the pushed limit.  Returns
`(okResult, legitEnd, values)` where `okResult` is the C++ boolean result
(note the two conversion slips in the source: `return tag;` with `tag = 1`
after a failed `ReadVarintSizeAsInt` yields `true`, and the value pushed so
far persist), `legitEnd` is the `legitimate_message_end_` flag consulted by
`DecrementRecursionDepthAndPopLimit` (set only when the tag read found no
byte at all), and `values` are the `lod_data` entries accumulated so far. -/
def ParseLodData (acc : List Nat) (bytes : List Nat) : Nat → Option (Bool × Bool × List Nat)
  | 0 => none
  | fuel + 1 =>
    if (ReadTagWithCutoff127 bytes).ok then
      if (ReadTagWithCutoff127 bytes).tag / 8 = 1 then
        if (ReadTagWithCutoff127 bytes).tag % 8 = 0 then
          match ReadVarint64 (ReadTagWithCutoff127 bytes).rest with
          | none => some (false, false, acc)
          | some (v, r1) => ParseLodData (acc ++ [v]) r1 fuel
        else if (ReadTagWithCutoff127 bytes).tag % 8 = 2 then
          match ReadVarintSizeAsInt (ReadTagWithCutoff127 bytes).rest with
          | (none, _) => some (true, false, acc)
          | (some len, r1) =>
            match ReadNVarints len r1 with
            | (vs, r2, okv) =>
              if okv then ParseLodData (acc ++ vs) r2 fuel
              else some (false, false, acc ++ vs)
        else some (false, false, acc)
      else some (false, false, acc)
    else some ((ReadTagWithCutoff127 bytes).tag / 8 == 0, (ReadTagWithCutoff127 bytes).atEnd, acc)

/-! ### The message driver -/

/-- One step of the top-level dispatch: what `Parse`'s `switch` does for one
recognized tag.  `stop` carries an immediate return, `next` continues the
loop. -/
inductive StepRes where
  | stop (o : POutcome) (st : PState)
  | next (st : PState) (rest : List Nat)
deriving Repr, DecidableEq

/-- The body of `VariableResponse::Parse`'s `switch (tag)`, for one field
read from the stream.  `field` is `GetTagFieldNumber`, `wt` the wire type. -/
def ParseField (st : PState) (field wt : Nat) (bytes : List Nat) : StepRes :=
  if field = 1 then
    -- varname
    if wt ≠ 2 then .stop (.ok 1) st
    else
      match ReadVarint32 bytes with
      | none => .stop (.ok 1) st
      | some (len, r1) =>
        match ReadString len r1 with
        | none => .stop (.ok 1) st
        | some (s, r2) => .next { st with meta := { st.meta with varname := s } } r2
  else if field = 2 then
    -- type
    if wt ≠ 0 then .stop (.ok 2) st
    else
      match ReadVarint64 bytes with
      | none => .stop (.ok 2) st
      | some (v, r1) => .next { st with meta := { st.meta with typeRaw := v % 2 ^ 32 } } r1
  else if field = 3 then
    -- data_type
    if wt ≠ 0 then .stop (.ok 3) st
    else
      match ReadVarint64 bytes with
      | none => .stop (.ok 3) st
      | some (v, r1) => .next { st with meta := { st.meta with dataType := v % 2 ^ 32 } } r1
  else if field = 4 then
    -- dims: not packed
    if wt = 0 then
      match ReadVarint64 bytes with
      | none => .stop (.ok 4) st
      | some (v, r1) => .next { st with meta := { st.meta with dims := st.meta.dims ++ [v] } } r1
    -- dims: packed (the loop reads a COUNT of varints equal to the declared length)
    else if wt = 2 then
      match ReadVarintSizeAsInt bytes with
      | (none, _) => .stop (.ok 4) st
      | (some len, r1) =>
        match ReadNVarints len r1 with
        | (vs, r2, okv) =>
          let st' := { st with meta := { st.meta with dims := st.meta.dims ++ vs } }
          if okv then .next st' r2 else .stop (.ok 4) st'
    else .stop (.ok 4) st
  else if field = 5 then
    -- lod_level
    if wt ≠ 0 then .stop (.ok 5) st
    else
      match ReadVarint64 bytes with
      | none => .stop (.ok 5) st
      | some (v, r1) => .next { st with meta := { st.meta with lodLevel := v } } r1
  else if field = 6 then
    -- lod: push a limit of `len` bytes, run ParseLodData, pop the limit.
    -- The recursion budget (64) cannot be exhausted at this fixed nesting
    -- depth of one, so `p.second < 0` never holds and is not modelled.
    if wt ≠ 2 then .stop (.ok 6) st
    else
      match ReadVarintSizeAsInt bytes with
      | (none, _) => .stop (.ok 6) st
      | (some len, r1) =>
        match ParseLodData [] (r1.take len) ((r1.take len).length + 1) with
        | none => .stop (.ok 6) st -- unreachable: the fuel exceeds the region length
        | some (okLod, legit, vals) =>
          if okLod then
            if legit then
              -- DecrementRecursionDepthAndPopLimit succeeded
              if vals.isEmpty then .next st (r1.drop len)
              else .next { st with meta := { st.meta with lod := st.meta.lod ++ [vals] } }
                (r1.drop len)
            else
              -- pop-limit failure: the source writes `return false;` inside
              -- `int Parse`, which converts to the int 0 (the success code)
              .stop (.ok 0) st
          else .stop (.ok 6) st
  else if field = 7 then
    -- serialized: PADDLE_ENFORCE on the metadata precondition comes first
    if (st.meta.typeRaw = 1 ∨ st.meta.typeRaw = 0) ∧ st.meta.varname ≠ [] then
      if wt ≠ 2 then .stop (.ok 7) st
      else
        match ReadVarintSizeAsInt bytes with
        | (none, _) => .stop (.ok 7) st
        | (some len, r1) =>
          if st.meta.typeRaw = 0 then
            -- PADDLE_ENFORCE(meta_.lod_size() >= 0) is vacuously true
            match CopyLodTensorData st len r1 with
            | .crashRes => .stop .crash st
            | .fatalRes => .stop .fatal st
            | .failRes st' => .stop (.ok 7) st'
            | .okRes st' r2 => .next st' r2
          else if st.meta.typeRaw = 1 then
            match CopySelectRowsTensorData st len r1 with
            | .crashRes => .stop .crash st
            | .fatalRes => .stop .fatal st
            | .failRes st' => .stop (.ok 7) st'
            | .okRes st' r2 => .next st' r2
          else .stop (.ok 7) st
    else .stop .fatal st
  else if field = 8 then
    -- rows: same PADDLE_ENFORCE first
    if (st.meta.typeRaw = 1 ∨ st.meta.typeRaw = 0) ∧ st.meta.varname ≠ [] then
      if wt ≠ 2 then .stop (.ok 8) st
      else
        match ReadVarintSizeAsInt bytes with
        | (none, _) => .stop (.ok 8) st
        | (some len, r1) =>
          match CopySelectRowsData st len r1 with
          | .crashRes => .stop .crash st
          | .fatalRes => .stop .fatal st
          | .failRes st' => .stop (.ok 8) st'
          | .okRes st' r2 => .next st' r2
    else .stop .fatal st
  else .stop (.ok (-1)) st

/-- The top-level tag loop of `VariableResponse::Parse`.  A failed tag read
with field number 0 is the end-of-message success return; a failed read with a
non-zero field number returns the generic error -1.  The fuel only bounds the
number of loop iterations; `Parse` supplies more fuel than the iteration
count, which is at most the byte count. -/
def ParseLoop (st : PState) (bytes : List Nat) : Nat → Option (POutcome × PState)
  | 0 => none
  | fuel + 1 =>
    if (ReadTagWithCutoff127 bytes).ok then
      match ParseField st ((ReadTagWithCutoff127 bytes).tag / 8)
          ((ReadTagWithCutoff127 bytes).tag % 8) (ReadTagWithCutoff127 bytes).rest with
      | .stop o st' => some (o, st')
      | .next st' rest' => ParseLoop st' rest' fuel
    else if (ReadTagWithCutoff127 bytes).tag / 8 = 0 then some (.ok 0, st)
    else some (.ok (-1), st)

/-- `VariableResponse::Parse` on a byte stream. -/
def Parse (st : PState) (bytes : List Nat) : Option (POutcome × PState) :=
  ParseLoop st bytes (bytes.length + 1)

/-- The state a successful decode of `encodeMsg` is expected to reach:
metadata reproduced verbatim and the payload bytes in the destination named by
the representation kind. -/
def finalSt (scope : List (List Nat)) (g : Bool) (name : List Nat) (ty dt : Nat)
    (ds : List Nat) (lods : List (List Nat)) (payload : List Nat) : PState :=
  { scope := scope, gpu := g,
    meta := ⟨name, ty, dt, ds, lods.length, lods⟩,
    dense := if ty = 0 then some ⟨ds.map i64ToI32, lods, payload⟩ else none,
    slrVal := if ty = 1 then some ⟨ds.map i64ToI32, payload⟩ else none,
    slrRows := none }

/-! ### Basic list lemmas -/

theorem takeAppend (a b : List Nat) : (a ++ b).take a.length = a := by
  induction a with
  | nil => simp
  | cons x xs ih => simp [ih]

theorem dropAppend (a b : List Nat) : (a ++ b).drop a.length = b := by
  induction a with
  | nil => simp
  | cons x xs ih => simp [ih]

/-! ### Varint encoder/decoder lemmas -/

theorem ReadVarintLoop_enc (f : Nat) : ∀ (v : Nat) (tail : List Nat) (fuel : Nat),
    v < 128 ^ f → f ≤ fuel → 1 ≤ fuel →
    ReadVarintLoop (encVarintF f v ++ tail) fuel = some (v, tail) := by
  induction f with
  | zero =>
    intro v tail fuel hv _ h1
    obtain rfl : v = 0 := Nat.lt_one_iff.mp (by simpa using hv)
    cases fuel with
    | zero => omega
    | succ fl => simp [encVarintF, ReadVarintLoop]
  | succ f ih =>
    intro v tail fuel hv hf h1
    cases fuel with
    | zero => omega
    | succ fl =>
      by_cases hs : v < 128
      · simp [encVarintF, hs, ReadVarintLoop]
      · have hvd : v / 128 < 128 ^ f := by
          have hlt : v < 128 * 128 ^ f := by
            have := hv
            rwa [pow_succ, Nat.mul_comm] at this
          exact Nat.div_lt_of_lt_mul hlt
        have hf1 : 1 ≤ f := by
          rcases Nat.eq_zero_or_pos f with rfl | h
          · exact absurd (by simpa using hv) hs
          · exact h
        have step := ih (v / 128) tail fl hvd (by omega) (by omega)
        have hnot : ¬ (v % 128 + 128 < 128) := by omega
        simp only [encVarintF, if_neg hs, List.cons_append]
        simp only [ReadVarintLoop, if_neg hnot, step]
        have hm : (v % 128 + 128) % 128 = v % 128 := by omega
        simp [hm, Nat.mod_add_div]

theorem encVarint_small (v : Nat) (h : v < 128) : encVarint v = [v] := by
  simp [encVarint, encVarintF, h]

theorem ReadVarint64_enc (v : Nat) (h : v < 2 ^ 64) (tail : List Nat) :
    ReadVarint64 (encVarint v ++ tail) = some (v, tail) := by
  have h128 : v < 128 ^ 10 := lt_of_lt_of_le h (by norm_num)
  unfold ReadVarint64 encVarint
  rw [ReadVarintLoop_enc 10 v tail 10 h128 (le_refl 10) (by norm_num)]
  show some (v % 2 ^ 64, tail) = some (v, tail)
  rw [Nat.mod_eq_of_lt h]

theorem ReadVarint32_enc (v : Nat) (h : v < 2 ^ 32) (tail : List Nat) :
    ReadVarint32 (encVarint v ++ tail) = some (v, tail) := by
  have h128 : v < 128 ^ 10 :=
    lt_of_lt_of_le h (by norm_num : (2 : Nat) ^ 32 ≤ 128 ^ 10)
  unfold ReadVarint32 encVarint
  rw [ReadVarintLoop_enc 10 v tail 10 h128 (le_refl 10) (by norm_num)]
  show some (v % 2 ^ 32, tail) = some (v, tail)
  rw [Nat.mod_eq_of_lt h]

theorem ReadVarintSizeAsInt_enc (v : Nat) (h : v ≤ INTMAX) (tail : List Nat) :
    ReadVarintSizeAsInt (encVarint v ++ tail) = (some v, tail) := by
  have h64 : v < 2 ^ 64 := by
    have : INTMAX < 2 ^ 64 := by unfold INTMAX; norm_num
    omega
  unfold ReadVarintSizeAsInt
  rw [ReadVarint64_enc v h64 tail]
  simp [h]

theorem ReadVarintSizeAsInt_enc_big (v : Nat) (hlo : INTMAX < v) (hhi : v < 2 ^ 64)
    (tail : List Nat) : ReadVarintSizeAsInt (encVarint v ++ tail) = (none, tail) := by
  unfold ReadVarintSizeAsInt
  rw [ReadVarint64_enc v hhi tail]
  simp [Nat.not_le.mpr hlo]

theorem ReadVarint64_cons (b : Nat) (h : b < 128) (tail : List Nat) :
    ReadVarint64 (b :: tail) = some (b, tail) := by
  have hb : b < 2 ^ 64 := by
    have : (128 : Nat) ≤ 2 ^ 64 := by norm_num
    omega
  have hl : ReadVarintLoop (b :: tail) 10 = some (b, tail) := by
    simp [ReadVarintLoop, h]
  unfold ReadVarint64
  rw [hl]
  show some (b % 2 ^ 64, tail) = some (b, tail)
  rw [Nat.mod_eq_of_lt hb]

theorem ReadTag_cons (b : Nat) (h1 : 1 ≤ b) (h2 : b < 128) (tail : List Nat) :
    ReadTagWithCutoff127 (b :: tail) = ⟨b, true, false, tail⟩ := by
  have hl : ReadVarintLoop (b :: tail) 10 = some (b, tail) := by
    simp [ReadVarintLoop, h2]
  unfold ReadTagWithCutoff127
  rw [hl]
  have hm : b % 2 ^ 32 = b := Nat.mod_eq_of_lt (by
    have : (128 : Nat) ≤ 2 ^ 32 := by norm_num
    omega)
  simp only [hm, TagRes.mk.injEq, decide_eq_true_eq, true_and, and_true]
  exact ⟨h1, by omega⟩

theorem ReadTag_nil : ReadTagWithCutoff127 [] = ⟨0, false, true, []⟩ := by
  simp [ReadTagWithCutoff127, ReadVarintLoop]

/-! ### Consumption lemmas -/

theorem ReadVarintLoop_len : ∀ (m : Nat) (bytes : List Nat) (v : Nat) (r : List Nat),
    ReadVarintLoop bytes m = some (v, r) → r.length < bytes.length := by
  intro m
  induction m with
  | zero => intro bytes v r h; simp [ReadVarintLoop] at h
  | succ m ih =>
    intro bytes v r h
    cases bytes with
    | nil => simp [ReadVarintLoop] at h
    | cons b bs =>
      by_cases hb : b < 128
      · simp [ReadVarintLoop, hb] at h
        obtain ⟨-, rfl⟩ := h
        simp
      · simp only [ReadVarintLoop, if_neg hb] at h
        cases hrec : ReadVarintLoop bs m with
        | none => rw [hrec] at h; simp at h
        | some p =>
          obtain ⟨v', r'⟩ := p
          rw [hrec] at h
          simp at h
          obtain ⟨-, rfl⟩ := h
          have := ih bs v' r' hrec
          simp
          omega

theorem ReadVarint64_len (bytes : List Nat) (v : Nat) (r : List Nat)
    (h : ReadVarint64 bytes = some (v, r)) : r.length < bytes.length := by
  unfold ReadVarint64 at h
  cases hl : ReadVarintLoop bytes 10 with
  | none => rw [hl] at h; simp at h
  | some p =>
    obtain ⟨v', r'⟩ := p
    rw [hl] at h
    simp at h
    obtain ⟨-, rfl⟩ := h
    exact ReadVarintLoop_len 10 bytes v' r' hl

theorem ReadVarint32_len (bytes : List Nat) (v : Nat) (r : List Nat)
    (h : ReadVarint32 bytes = some (v, r)) : r.length < bytes.length := by
  unfold ReadVarint32 at h
  cases hl : ReadVarintLoop bytes 10 with
  | none => rw [hl] at h; simp at h
  | some p =>
    obtain ⟨v', r'⟩ := p
    rw [hl] at h
    simp at h
    obtain ⟨-, rfl⟩ := h
    exact ReadVarintLoop_len 10 bytes v' r' hl

theorem ReadVarintSizeAsInt_len (bytes : List Nat) (o : Option Nat) (r : List Nat)
    (h : ReadVarintSizeAsInt bytes = (o, r)) : r.length ≤ bytes.length := by
  unfold ReadVarintSizeAsInt at h
  cases hl : ReadVarint64 bytes with
  | none =>
    rw [hl] at h
    simp at h
    obtain ⟨-, rfl⟩ := h
    exact le_refl _
  | some p =>
    obtain ⟨v', r'⟩ := p
    rw [hl] at h
    simp at h
    obtain ⟨-, rfl⟩ := h
    exact le_of_lt (ReadVarint64_len bytes v' r' hl)

theorem ReadTag_ok_len (bytes : List Nat)
    (h : (ReadTagWithCutoff127 bytes).ok = true) :
    (ReadTagWithCutoff127 bytes).rest.length < bytes.length := by
  cases hl : ReadVarintLoop bytes 10 with
  | none => simp [ReadTagWithCutoff127, hl] at h
  | some p =>
    obtain ⟨v', r'⟩ := p
    have hrw : (ReadTagWithCutoff127 bytes).rest = r' := by
      simp [ReadTagWithCutoff127, hl]
    rw [hrw]
    exact ReadVarintLoop_len 10 bytes v' r' hl

theorem ReadString_len (n : Nat) (bytes s r : List Nat)
    (h : ReadString n bytes = some (s, r)) : r.length ≤ bytes.length := by
  unfold ReadString at h
  by_cases hn : n ≤ bytes.length
  · rw [if_pos hn] at h
    simp at h
    obtain ⟨-, rfl⟩ := h
    simp
  · rw [if_neg hn] at h; simp at h

theorem ReadNVarints_len : ∀ (n : Nat) (bytes : List Nat),
    (ReadNVarints n bytes).2.1.length ≤ bytes.length := by
  intro n
  induction n with
  | zero => intro bytes; simp [ReadNVarints]
  | succ n ih =>
    intro bytes
    simp only [ReadNVarints]
    cases hv : ReadVarint64 bytes with
    | none => simp
    | some p =>
      obtain ⟨v', r'⟩ := p
      show (ReadNVarints n r').2.1.length ≤ bytes.length
      exact le_trans (ih r') (le_of_lt (ReadVarint64_len bytes v' r' hv))

theorem ReadRaw_rest_len (gpu : Bool) (bytes : List Nat) (size : Int) :
    (ReadRaw gpu bytes size).rest.length ≤ bytes.length := by
  unfold ReadRaw
  split
  · split
    · simp
    · split
      · simp
      · split <;> simp
  · split
    · simp
    · split
      · simp
      · split <;> simp

theorem CopyLodTensorData_ok_len (st : PState) (len : Nat) (bytes : List Nat)
    (st' : PState) (r : List Nat) (h : CopyLodTensorData st len bytes = .okRes st' r) :
    r.length ≤ bytes.length := by
  simp only [CopyLodTensorData] at h
  split_ifs at h
  all_goals first
    | exact CopyRes.noConfusion h
    | (injection h with h1 h2; subst h2; exact ReadRaw_rest_len st.gpu bytes _)

theorem CopySelectRowsTensorData_ok_len (st : PState) (len : Nat) (bytes : List Nat)
    (st' : PState) (r : List Nat)
    (h : CopySelectRowsTensorData st len bytes = .okRes st' r) :
    r.length ≤ bytes.length := by
  simp only [CopySelectRowsTensorData] at h
  split_ifs at h
  all_goals first
    | exact CopyRes.noConfusion h
    | (injection h with h1 h2; subst h2; exact ReadRaw_rest_len st.gpu bytes _)

theorem CopySelectRowsData_ok_len (st : PState) (len : Nat) (bytes : List Nat)
    (st' : PState) (r : List Nat) (h : CopySelectRowsData st len bytes = .okRes st' r) :
    r.length ≤ bytes.length := by
  simp only [CopySelectRowsData] at h
  split_ifs at h
  all_goals first
    | exact CopyRes.noConfusion h
    | (injection h with h1 h2; subst h2; exact ReadRaw_rest_len false bytes _)

theorem ParseField_next_len (st : PState) (field wt : Nat) (bytes : List Nat)
    (st' : PState) (rest' : List Nat)
    (h : ParseField st field wt bytes = .next st' rest') :
    rest'.length ≤ bytes.length := by
  unfold ParseField at h
  by_cases hf1 : field = 1
  · rw [if_pos hf1] at h
    by_cases hw : wt ≠ 2
    · rw [if_pos hw] at h; exact StepRes.noConfusion h
    · rw [if_neg hw] at h
      cases h32 : ReadVarint32 bytes with
      | none => rw [h32] at h; exact StepRes.noConfusion h
      | some p =>
        obtain ⟨len, r1⟩ := p
        rw [h32] at h
        dsimp only at h
        cases hstr : ReadString len r1 with
        | none => rw [hstr] at h; exact StepRes.noConfusion h
        | some q =>
          obtain ⟨s, r2⟩ := q
          rw [hstr] at h
          dsimp only at h
          injection h with h1 h2
          subst h2
          exact le_trans (ReadString_len len r1 s _ hstr)
            (le_of_lt (ReadVarint32_len bytes len r1 h32))
  · rw [if_neg hf1] at h
    by_cases hf2 : field = 2
    · rw [if_pos hf2] at h
      by_cases hw : wt ≠ 0
      · rw [if_pos hw] at h; exact StepRes.noConfusion h
      · rw [if_neg hw] at h
        cases h64 : ReadVarint64 bytes with
        | none => rw [h64] at h; exact StepRes.noConfusion h
        | some p =>
          obtain ⟨v, r1⟩ := p
          rw [h64] at h
          dsimp only at h
          injection h with h1 h2
          subst h2
          exact le_of_lt (ReadVarint64_len bytes v r1 h64)
    · rw [if_neg hf2] at h
      by_cases hf3 : field = 3
      · rw [if_pos hf3] at h
        by_cases hw : wt ≠ 0
        · rw [if_pos hw] at h; exact StepRes.noConfusion h
        · rw [if_neg hw] at h
          cases h64 : ReadVarint64 bytes with
          | none => rw [h64] at h; exact StepRes.noConfusion h
          | some p =>
            obtain ⟨v, r1⟩ := p
            rw [h64] at h
            dsimp only at h
            injection h with h1 h2
            subst h2
            exact le_of_lt (ReadVarint64_len bytes v r1 h64)
      · rw [if_neg hf3] at h
        by_cases hf4 : field = 4
        · rw [if_pos hf4] at h
          by_cases hw0 : wt = 0
          · rw [if_pos hw0] at h
            cases h64 : ReadVarint64 bytes with
            | none => rw [h64] at h; exact StepRes.noConfusion h
            | some p =>
              obtain ⟨v, r1⟩ := p
              rw [h64] at h
              dsimp only at h
              injection h with h1 h2
              subst h2
              exact le_of_lt (ReadVarint64_len bytes v r1 h64)
          · rw [if_neg hw0] at h
            by_cases hw2 : wt = 2
            · rw [if_pos hw2] at h
              cases hsz : ReadVarintSizeAsInt bytes with
              | mk o r1 =>
                rw [hsz] at h
                cases o with
                | none => dsimp only at h; exact StepRes.noConfusion h
                | some len =>
                  dsimp only at h
                  cases hnv : ReadNVarints len r1 with
                  | mk vs q =>
                    obtain ⟨r2, okv⟩ := q
                    rw [hnv] at h
                    dsimp only at h
                    have hr2 : r2.length ≤ r1.length := by
                      have := ReadNVarints_len len r1
                      rw [hnv] at this
                      exact this
                    have hr1 : r1.length ≤ bytes.length :=
                      ReadVarintSizeAsInt_len bytes (some len) r1 (by rw [hsz])
                    cases okv with
                    | false => simp at h
                    | true =>
                      simp only [if_true] at h
                      injection h with h1 h2
                      subst h2
                      omega
            · rw [if_neg hw2] at h; exact StepRes.noConfusion h
        · rw [if_neg hf4] at h
          by_cases hf5 : field = 5
          · rw [if_pos hf5] at h
            by_cases hw : wt ≠ 0
            · rw [if_pos hw] at h; exact StepRes.noConfusion h
            · rw [if_neg hw] at h
              cases h64 : ReadVarint64 bytes with
              | none => rw [h64] at h; exact StepRes.noConfusion h
              | some p =>
                obtain ⟨v, r1⟩ := p
                rw [h64] at h
                dsimp only at h
                injection h with h1 h2
                subst h2
                exact le_of_lt (ReadVarint64_len bytes v r1 h64)
          · rw [if_neg hf5] at h
            by_cases hf6 : field = 6
            · rw [if_pos hf6] at h
              by_cases hw : wt ≠ 2
              · rw [if_pos hw] at h; exact StepRes.noConfusion h
              · rw [if_neg hw] at h
                cases hsz : ReadVarintSizeAsInt bytes with
                | mk o r1 =>
                  rw [hsz] at h
                  cases o with
                  | none => dsimp only at h; exact StepRes.noConfusion h
                  | some len =>
                    dsimp only at h
                    have hr1 : r1.length ≤ bytes.length :=
                      ReadVarintSizeAsInt_len bytes (some len) r1 (by rw [hsz])
                    cases hp : ParseLodData [] (r1.take len) ((r1.take len).length + 1) with
                    | none => rw [hp] at h; exact StepRes.noConfusion h
                    | some trip =>
                      obtain ⟨okLod, legit, vals⟩ := trip
                      rw [hp] at h
                      dsimp only at h
                      cases okLod with
                      | false => simp at h
                      | true =>
                        cases legit with
                        | false => simp at h
                        | true =>
                          simp only [if_true] at h
                          by_cases hve : vals.isEmpty = true
                          · rw [if_pos hve] at h
                            injection h with h1 h2
                            subst h2
                            simp only [List.length_drop]
                            omega
                          · rw [if_neg hve] at h
                            injection h with h1 h2
                            subst h2
                            simp only [List.length_drop]
                            omega
            · rw [if_neg hf6] at h
              by_cases hf7 : field = 7
              · rw [if_pos hf7] at h
                by_cases hpre : (st.meta.typeRaw = 1 ∨ st.meta.typeRaw = 0) ∧
                    st.meta.varname ≠ []
                · rw [if_pos hpre] at h
                  by_cases hw : wt ≠ 2
                  · rw [if_pos hw] at h; exact StepRes.noConfusion h
                  · rw [if_neg hw] at h
                    cases hsz : ReadVarintSizeAsInt bytes with
                    | mk o r1 =>
                      rw [hsz] at h
                      cases o with
                      | none => dsimp only at h; exact StepRes.noConfusion h
                      | some len =>
                        dsimp only at h
                        have hr1 : r1.length ≤ bytes.length :=
                          ReadVarintSizeAsInt_len bytes (some len) r1 (by rw [hsz])
                        by_cases hty0 : st.meta.typeRaw = 0
                        · rw [if_pos hty0] at h
                          cases hcp : CopyLodTensorData st len r1 with
                          | crashRes => rw [hcp] at h; exact StepRes.noConfusion h
                          | fatalRes => rw [hcp] at h; exact StepRes.noConfusion h
                          | failRes st2 => rw [hcp] at h; exact StepRes.noConfusion h
                          | okRes st2 r2 =>
                            rw [hcp] at h
                            injection h with h1 h2
                            subst h2
                            exact le_trans (CopyLodTensorData_ok_len st len r1 st2 _ hcp) hr1
                        · rw [if_neg hty0] at h
                          by_cases hty1 : st.meta.typeRaw = 1
                          · rw [if_pos hty1] at h
                            cases hcp : CopySelectRowsTensorData st len r1 with
                            | crashRes => rw [hcp] at h; exact StepRes.noConfusion h
                            | fatalRes => rw [hcp] at h; exact StepRes.noConfusion h
                            | failRes st2 => rw [hcp] at h; exact StepRes.noConfusion h
                            | okRes st2 r2 =>
                              rw [hcp] at h
                              injection h with h1 h2
                              subst h2
                              exact le_trans
                                (CopySelectRowsTensorData_ok_len st len r1 st2 _ hcp) hr1
                          · rw [if_neg hty1] at h; exact StepRes.noConfusion h
                · rw [if_neg hpre] at h; exact StepRes.noConfusion h
              · rw [if_neg hf7] at h
                by_cases hf8 : field = 8
                · rw [if_pos hf8] at h
                  by_cases hpre : (st.meta.typeRaw = 1 ∨ st.meta.typeRaw = 0) ∧
                      st.meta.varname ≠ []
                  · rw [if_pos hpre] at h
                    by_cases hw : wt ≠ 2
                    · rw [if_pos hw] at h; exact StepRes.noConfusion h
                    · rw [if_neg hw] at h
                      cases hsz : ReadVarintSizeAsInt bytes with
                      | mk o r1 =>
                        rw [hsz] at h
                        cases o with
                        | none => dsimp only at h; exact StepRes.noConfusion h
                        | some len =>
                          dsimp only at h
                          have hr1 : r1.length ≤ bytes.length :=
                            ReadVarintSizeAsInt_len bytes (some len) r1 (by rw [hsz])
                          cases hcp : CopySelectRowsData st len r1 with
                          | crashRes => rw [hcp] at h; exact StepRes.noConfusion h
                          | fatalRes => rw [hcp] at h; exact StepRes.noConfusion h
                          | failRes st2 => rw [hcp] at h; exact StepRes.noConfusion h
                          | okRes st2 r2 =>
                            rw [hcp] at h
                            injection h with h1 h2
                            subst h2
                            exact le_trans (CopySelectRowsData_ok_len st len r1 st2 _ hcp) hr1
                  · rw [if_neg hpre] at h; exact StepRes.noConfusion h
                · rw [if_neg hf8] at h; exact StepRes.noConfusion h

/-- Supplying more fuel than the iteration count cannot change the result:
`ParseLoop` consumes at least one byte per iteration, so any result reached
with some fuel is also reached with any fuel exceeding the byte count. -/
theorem ParseLoop_adequate : ∀ (K : Nat) (st : PState) (bytes : List Nat)
    (r : POutcome × PState) (fuel : Nat),
    ParseLoop st bytes K = some r → bytes.length < fuel →
    ParseLoop st bytes fuel = some r := by
  intro K
  induction K with
  | zero => intro st bytes r fuel h hf; simp [ParseLoop] at h
  | succ K ih =>
    intro st bytes r fuel h hf
    cases fuel with
    | zero => omega
    | succ fl =>
      simp only [ParseLoop] at h ⊢
      by_cases ht : (ReadTagWithCutoff127 bytes).ok = true
      · rw [if_pos ht] at h ⊢
        cases hp : ParseField st ((ReadTagWithCutoff127 bytes).tag / 8)
            ((ReadTagWithCutoff127 bytes).tag % 8) (ReadTagWithCutoff127 bytes).rest with
        | stop o st2 =>
          rw [hp] at h
          dsimp only at h ⊢
          exact h
        | next st2 rest2 =>
          rw [hp] at h
          dsimp only at h ⊢
          apply ih _ _ _ _ h
          have h1 := ReadTag_ok_len bytes ht
          have h2 := ParseField_next_len _ _ _ _ _ _ hp
          omega
      · rw [if_neg ht] at h ⊢
        exact h

/-- Transfer a `ParseLoop` computation at any fuel to `Parse`. -/
theorem Parse_of_loop (st : PState) (bytes : List Nat) (r : POutcome × PState)
    (K : Nat) (h : ParseLoop st bytes K = some r) : Parse st bytes = some r :=
  ParseLoop_adequate K st bytes r (bytes.length + 1) h (by omega)

/-! ### Single-step evaluation lemmas -/

theorem ParseLoop_nil (st : PState) (fuel : Nat) :
    ParseLoop st [] (fuel + 1) = some (.ok 0, st) := by
  simp only [ParseLoop, ReadTag_nil]
  rfl

theorem ParseLoop_step (b f w : Nat) (h1 : 1 ≤ b) (h2 : b < 128)
    (hdiv : b / 8 = f) (hmod : b % 8 = w) (tail : List Nat) (st : PState) (fuel : Nat) :
    ParseLoop st (b :: tail) (fuel + 1) =
      match ParseField st f w tail with
      | .stop o st' => some (o, st')
      | .next st' rest' => ParseLoop st' rest' fuel := by
  simp only [ParseLoop]
  rw [ReadTag_cons b h1 h2 tail]
  dsimp only
  rw [hdiv, hmod]
  rw [if_pos rfl]

theorem ReadString_exact (a b : List Nat) :
    ReadString a.length (a ++ b) = some (a, b) := by
  unfold ReadString
  rw [if_pos (by simp)]
  rw [takeAppend, dropAppend]

theorem ParseField_varname (st : PState) (name rest : List Nat)
    (h : name.length < 2 ^ 32) :
    ParseField st 1 2 (encVarint name.length ++ (name ++ rest)) =
      .next { st with meta := { st.meta with varname := name } } rest := by
  unfold ParseField
  rw [if_pos rfl]
  rw [if_neg (by simp : ¬((2 : Nat) ≠ 2))]
  rw [ReadVarint32_enc name.length h (name ++ rest)]
  dsimp only
  rw [ReadString_exact name rest]

theorem step_varname (st : PState) (name rest : List Nat) (fuel : Nat)
    (h : name.length < 2 ^ 32) :
    ParseLoop st (encVarname name ++ rest) (fuel + 1) =
      ParseLoop { st with meta := { st.meta with varname := name } } rest fuel := by
  have hb : encVarname name ++ rest = 10 :: (encVarint name.length ++ (name ++ rest)) := by
    simp [encVarname]
  rw [hb, ParseLoop_step 10 1 2 (by norm_num) (by norm_num) (by norm_num) (by norm_num)]
  rw [ParseField_varname st name rest h]

theorem ParseField_type (st : PState) (v : Nat) (rest : List Nat) (h : v < 2 ^ 32) :
    ParseField st 2 0 (encVarint v ++ rest) =
      .next { st with meta := { st.meta with typeRaw := v } } rest := by
  unfold ParseField
  rw [if_neg (by norm_num : ¬(2 : Nat) = 1)]
  rw [if_pos rfl]
  rw [if_neg (by simp : ¬((0 : Nat) ≠ 0))]
  rw [ReadVarint64_enc v (lt_of_lt_of_le h (by norm_num)) rest]
  dsimp only
  rw [Nat.mod_eq_of_lt h]

theorem step_type (st : PState) (v : Nat) (rest : List Nat) (fuel : Nat)
    (h : v < 2 ^ 32) :
    ParseLoop st (encType v ++ rest) (fuel + 1) =
      ParseLoop { st with meta := { st.meta with typeRaw := v } } rest fuel := by
  have hb : encType v ++ rest = 16 :: (encVarint v ++ rest) := by simp [encType]
  rw [hb, ParseLoop_step 16 2 0 (by norm_num) (by norm_num) (by norm_num) (by norm_num)]
  rw [ParseField_type st v rest h]

theorem ParseField_dataType (st : PState) (v : Nat) (rest : List Nat) (h : v < 2 ^ 32) :
    ParseField st 3 0 (encVarint v ++ rest) =
      .next { st with meta := { st.meta with dataType := v } } rest := by
  unfold ParseField
  rw [if_neg (by norm_num : ¬(3 : Nat) = 1)]
  rw [if_neg (by norm_num : ¬(3 : Nat) = 2)]
  rw [if_pos rfl]
  rw [if_neg (by simp : ¬((0 : Nat) ≠ 0))]
  rw [ReadVarint64_enc v (lt_of_lt_of_le h (by norm_num)) rest]
  dsimp only
  rw [Nat.mod_eq_of_lt h]

theorem step_dataType (st : PState) (v : Nat) (rest : List Nat) (fuel : Nat)
    (h : v < 2 ^ 32) :
    ParseLoop st (encDataType v ++ rest) (fuel + 1) =
      ParseLoop { st with meta := { st.meta with dataType := v } } rest fuel := by
  have hb : encDataType v ++ rest = 24 :: (encVarint v ++ rest) := by simp [encDataType]
  rw [hb, ParseLoop_step 24 3 0 (by norm_num) (by norm_num) (by norm_num) (by norm_num)]
  rw [ParseField_dataType st v rest h]

theorem ParseField_lodLevel (st : PState) (v : Nat) (rest : List Nat) (h : v < 2 ^ 64) :
    ParseField st 5 0 (encVarint v ++ rest) =
      .next { st with meta := { st.meta with lodLevel := v } } rest := by
  unfold ParseField
  rw [if_neg (by norm_num : ¬(5 : Nat) = 1)]
  rw [if_neg (by norm_num : ¬(5 : Nat) = 2)]
  rw [if_neg (by norm_num : ¬(5 : Nat) = 3)]
  rw [if_neg (by norm_num : ¬(5 : Nat) = 4)]
  rw [if_pos rfl]
  rw [if_neg (by simp : ¬((0 : Nat) ≠ 0))]
  rw [ReadVarint64_enc v h rest]

theorem step_lodLevel (st : PState) (v : Nat) (rest : List Nat) (fuel : Nat)
    (h : v < 2 ^ 64) :
    ParseLoop st (encLodLevel v ++ rest) (fuel + 1) =
      ParseLoop { st with meta := { st.meta with lodLevel := v } } rest fuel := by
  have hb : encLodLevel v ++ rest = 40 :: (encVarint v ++ rest) := by simp [encLodLevel]
  rw [hb, ParseLoop_step 40 5 0 (by norm_num) (by norm_num) (by norm_num) (by norm_num)]
  rw [ParseField_lodLevel st v rest h]

theorem ParseField_dim (st : PState) (d : Nat) (rest : List Nat) (h : d < 2 ^ 64) :
    ParseField st 4 0 (encVarint d ++ rest) =
      .next { st with meta := { st.meta with dims := st.meta.dims ++ [d] } } rest := by
  unfold ParseField
  rw [if_neg (by norm_num : ¬(4 : Nat) = 1)]
  rw [if_neg (by norm_num : ¬(4 : Nat) = 2)]
  rw [if_neg (by norm_num : ¬(4 : Nat) = 3)]
  rw [if_pos rfl]
  rw [if_pos rfl]
  rw [ReadVarint64_enc d h rest]

/-- Unpacked dims fields: one loop iteration per dimension. -/
theorem step_dimsUnpacked (ds : List Nat) : ∀ (st : PState) (rest : List Nat)
    (fuel : Nat), (∀ d ∈ ds, d < 2 ^ 64) →
    ParseLoop st (encDimsUnpacked ds ++ rest) (fuel + ds.length) =
      ParseLoop { st with meta := { st.meta with dims := st.meta.dims ++ ds } } rest fuel := by
  induction ds with
  | nil =>
    intro st rest fuel _
    show ParseLoop st ([] ++ rest) fuel = _
    simp only [List.nil_append, List.append_nil]
  | cons d ds ih =>
    intro st rest fuel hd
    have hb : encDimsUnpacked (d :: ds) ++ rest =
        32 :: (encVarint d ++ (encDimsUnpacked ds ++ rest)) := by
      simp [encDimsUnpacked]
    have hfl : fuel + (d :: ds).length = (fuel + ds.length) + 1 := by simp; omega
    rw [hb, hfl,
      ParseLoop_step 32 4 0 (by norm_num) (by norm_num) (by norm_num) (by norm_num)]
    rw [ParseField_dim st d _ (hd d (by simp))]
    dsimp only
    rw [ih _ _ fuel (fun x hx => hd x (by simp [hx]))]
    simp [List.append_assoc]

theorem dimsInner_small (ds : List Nat) (h : ∀ d ∈ ds, d < 128) :
    dimsInner ds = ds := by
  induction ds with
  | nil => rfl
  | cons d ds ih =>
    have hd : encVarint d = [d] := encVarint_small d (h d (by simp))
    show encVarint d ++ dimsInner ds = d :: ds
    rw [hd, ih (fun x hx => h x (by simp [hx]))]
    rfl

theorem lodInner_small (vs : List Nat) (h : ∀ v ∈ vs, v < 128) :
    lodInner vs = vs := by
  induction vs with
  | nil => rfl
  | cons v vs ih =>
    have hv : encVarint v = [v] := encVarint_small v (h v (by simp))
    show encVarint v ++ lodInner vs = v :: vs
    rw [hv, ih (fun x hx => h x (by simp [hx]))]
    rfl

theorem ReadNVarints_exact (vs : List Nat) (tail : List Nat) (h : ∀ v ∈ vs, v < 128) :
    ReadNVarints vs.length (vs ++ tail) = (vs, tail, true) := by
  induction vs with
  | nil => simp [ReadNVarints]
  | cons v vs ih =>
    show ReadNVarints (vs.length + 1) (v :: (vs ++ tail)) = _
    simp only [ReadNVarints]
    rw [ReadVarint64_cons v (h v (by simp)) (vs ++ tail)]
    dsimp only
    rw [ih (fun x hx => h x (by simp [hx]))]

theorem ParseField_dimsPacked (st : PState) (ds rest : List Nat)
    (hsmall : ∀ d ∈ ds, d < 128) (hlen : ds.length ≤ INTMAX) :
    ParseField st 4 2 (encVarint ds.length ++ (ds ++ rest)) =
      .next { st with meta := { st.meta with dims := st.meta.dims ++ ds } } rest := by
  unfold ParseField
  rw [if_neg (by norm_num : ¬(4 : Nat) = 1)]
  rw [if_neg (by norm_num : ¬(4 : Nat) = 2)]
  rw [if_neg (by norm_num : ¬(4 : Nat) = 3)]
  rw [if_pos rfl]
  rw [if_neg (by norm_num : ¬(2 : Nat) = 0)]
  rw [if_pos rfl]
  rw [ReadVarintSizeAsInt_enc ds.length hlen (ds ++ rest)]
  dsimp only
  rw [ReadNVarints_exact ds rest hsmall]
  dsimp only
  rw [if_pos rfl]

theorem step_dimsPacked (st : PState) (ds rest : List Nat) (fuel : Nat)
    (hsmall : ∀ d ∈ ds, d < 128) (hlen : ds.length ≤ INTMAX) :
    ParseLoop st (encDimsPacked ds ++ rest) (fuel + 1) =
      ParseLoop { st with meta := { st.meta with dims := st.meta.dims ++ ds } } rest fuel := by
  have hinner : dimsInner ds = ds := dimsInner_small ds hsmall
  have hb : encDimsPacked ds ++ rest = 34 :: (encVarint ds.length ++ (ds ++ rest)) := by
    simp [encDimsPacked, hinner]
  rw [hb, ParseLoop_step 34 4 2 (by norm_num) (by norm_num) (by norm_num) (by norm_num)]
  rw [ParseField_dimsPacked st ds rest hsmall hlen]

/-! ### ParseLodData on encoded level bodies -/

theorem ParseLodData_nil (acc : List Nat) (fl : Nat) :
    ParseLodData acc [] (fl + 1) = some (true, true, acc) := by
  simp only [ParseLodData, ReadTag_nil]
  rfl

theorem ParseLodData_unpacked (vs : List Nat) : ∀ (acc : List Nat) (fuel : Nat),
    (∀ v ∈ vs, v < 2 ^ 64) → vs.length + 1 ≤ fuel →
    ParseLodData acc (lodBodyUnpacked vs) fuel = some (true, true, acc ++ vs) := by
  induction vs with
  | nil =>
    intro acc fuel _ hf
    cases fuel with
    | zero => omega
    | succ fl =>
      show ParseLodData acc [] (fl + 1) = _
      rw [ParseLodData_nil]
      simp
  | cons v vs ih =>
    intro acc fuel hv hf
    cases fuel with
    | zero => simp at hf
    | succ fl =>
      have hb : lodBodyUnpacked (v :: vs) =
          8 :: (encVarint v ++ lodBodyUnpacked vs) := by
        simp [lodBodyUnpacked]
      rw [hb]
      simp only [ParseLodData]
      rw [ReadTag_cons 8 (by norm_num) (by norm_num)]
      dsimp only
      rw [if_pos rfl]
      rw [if_pos (by norm_num : (8 : Nat) / 8 = 1)]
      rw [if_pos (by norm_num : (8 : Nat) % 8 = 0)]
      rw [ReadVarint64_enc v (hv v (by simp)) (lodBodyUnpacked vs)]
      dsimp only
      rw [ih (acc ++ [v]) fl (fun x hx => hv x (by simp [hx])) (by simp at hf; omega)]
      simp

theorem ParseLodData_packed (vs : List Nat) (acc : List Nat) (fuel : Nat)
    (hsmall : ∀ v ∈ vs, v < 128) (hlen : vs.length ≤ INTMAX) (hf : 2 ≤ fuel) :
    ParseLodData acc (lodBodyPacked vs) fuel = some (true, true, acc ++ vs) := by
  obtain ⟨fl, rfl⟩ : ∃ fl, fuel = fl + 2 := ⟨fuel - 2, by omega⟩
  have hinner : lodInner vs = vs := lodInner_small vs hsmall
  have hb : lodBodyPacked vs = 10 :: (encVarint vs.length ++ vs) := by
    rw [lodBodyPacked, hinner]
  rw [hb]
  show ParseLodData acc _ ((fl + 1) + 1) = _
  simp only [ParseLodData]
  rw [ReadTag_cons 10 (by norm_num) (by norm_num)]
  dsimp only
  rw [if_pos rfl]
  rw [if_pos (by norm_num : (10 : Nat) / 8 = 1)]
  rw [if_neg (by norm_num : ¬(10 : Nat) % 8 = 0)]
  rw [if_pos (by norm_num : (10 : Nat) % 8 = 2)]
  rw [ReadVarintSizeAsInt_enc vs.length hlen vs]
  dsimp only
  have hnv : ReadNVarints vs.length vs = (vs, [], true) := by
    have := ReadNVarints_exact vs [] hsmall
    rwa [List.append_nil] at this
  rw [hnv]
  dsimp only
  rw [if_pos rfl]
  exact ParseLodData_nil (acc ++ vs) fl

theorem lodBodyUnpacked_len_ge (vs : List Nat) :
    vs.length ≤ (lodBodyUnpacked vs).length := by
  induction vs with
  | nil => simp [lodBodyUnpacked]
  | cons v vs ih =>
    have hb : lodBodyUnpacked (v :: vs) = 8 :: (encVarint v ++ lodBodyUnpacked vs) := by
      simp [lodBodyUnpacked]
    rw [hb]
    simp
    omega

theorem ParseField_lodField (st : PState) (body vals rest : List Nat)
    (hbody : body.length ≤ INTMAX)
    (hparse : ParseLodData [] body (body.length + 1) = some (true, true, vals)) :
    ParseField st 6 2 (encVarint body.length ++ (body ++ rest)) =
      .next (if vals.isEmpty then st
        else { st with meta := { st.meta with lod := st.meta.lod ++ [vals] } }) rest := by
  unfold ParseField
  rw [if_neg (by norm_num : ¬(6 : Nat) = 1)]
  rw [if_neg (by norm_num : ¬(6 : Nat) = 2)]
  rw [if_neg (by norm_num : ¬(6 : Nat) = 3)]
  rw [if_neg (by norm_num : ¬(6 : Nat) = 4)]
  rw [if_neg (by norm_num : ¬(6 : Nat) = 5)]
  rw [if_pos rfl]
  rw [if_neg (by simp : ¬((2 : Nat) ≠ 2))]
  rw [ReadVarintSizeAsInt_enc body.length hbody (body ++ rest)]
  dsimp only
  rw [takeAppend body rest, dropAppend body rest]
  rw [hparse]
  dsimp only
  rw [if_pos rfl, if_pos rfl]
  by_cases hve : vals.isEmpty = true
  · rw [if_pos hve, if_pos hve]
  · rw [if_neg hve, if_neg hve]

theorem step_lodUnpacked (st : PState) (vs rest : List Nat) (fuel : Nat)
    (hv : ∀ v ∈ vs, v < 2 ^ 64) (hbody : (lodBodyUnpacked vs).length ≤ INTMAX) :
    ParseLoop st (encLodUnpacked vs ++ rest) (fuel + 1) =
      ParseLoop (if vs.isEmpty then st
        else { st with meta := { st.meta with lod := st.meta.lod ++ [vs] } }) rest fuel := by
  have hb : encLodUnpacked vs ++ rest =
      50 :: (encVarint (lodBodyUnpacked vs).length ++ (lodBodyUnpacked vs ++ rest)) := by
    simp [encLodUnpacked]
  rw [hb, ParseLoop_step 50 6 2 (by norm_num) (by norm_num) (by norm_num) (by norm_num)]
  have hp : ParseLodData [] (lodBodyUnpacked vs) ((lodBodyUnpacked vs).length + 1) =
      some (true, true, vs) := by
    have h1 := lodBodyUnpacked_len_ge vs
    have := ParseLodData_unpacked vs [] ((lodBodyUnpacked vs).length + 1) hv (by omega)
    simpa using this
  rw [ParseField_lodField st (lodBodyUnpacked vs) vs rest hbody hp]

theorem step_lodPacked (st : PState) (vs rest : List Nat) (fuel : Nat)
    (hsmall : ∀ v ∈ vs, v < 128) (hlen : vs.length ≤ INTMAX)
    (hbody : (lodBodyPacked vs).length ≤ INTMAX) :
    ParseLoop st (encLodPacked vs ++ rest) (fuel + 1) =
      ParseLoop (if vs.isEmpty then st
        else { st with meta := { st.meta with lod := st.meta.lod ++ [vs] } }) rest fuel := by
  have hb : encLodPacked vs ++ rest =
      50 :: (encVarint (lodBodyPacked vs).length ++ (lodBodyPacked vs ++ rest)) := by
    simp [encLodPacked]
  rw [hb, ParseLoop_step 50 6 2 (by norm_num) (by norm_num) (by norm_num) (by norm_num)]
  have hge : 1 ≤ (lodBodyPacked vs).length := by
    rw [lodBodyPacked]
    simp
  have hp : ParseLodData [] (lodBodyPacked vs) ((lodBodyPacked vs).length + 1) =
      some (true, true, vs) := by
    have := ParseLodData_packed vs [] ((lodBodyPacked vs).length + 1) hsmall hlen (by omega)
    simpa using this
  rw [ParseField_lodField st (lodBodyPacked vs) vs rest hbody hp]

theorem isEmpty_false_of_ne (vs : List Nat) (h : vs ≠ []) : vs.isEmpty = false := by
  cases vs with
  | nil => exact absurd rfl h
  | cons v vs => rfl

theorem step_lodsUnpacked (lods : List (List Nat)) : ∀ (st : PState) (rest : List Nat)
    (fuel : Nat),
    (∀ vs ∈ lods, vs ≠ [] ∧ (∀ v ∈ vs, v < 2 ^ 64) ∧
      (lodBodyUnpacked vs).length ≤ INTMAX) →
    ParseLoop st (encLods false lods ++ rest) (fuel + lods.length) =
      ParseLoop { st with meta := { st.meta with lod := st.meta.lod ++ lods } } rest fuel := by
  induction lods with
  | nil =>
    intro st rest fuel _
    show ParseLoop st ([] ++ rest) fuel = _
    simp only [List.nil_append, List.append_nil]
  | cons vs lods ih =>
    intro st rest fuel h
    obtain ⟨hne, hv, hbody⟩ := h vs (by simp)
    have hb : encLods false (vs :: lods) ++ rest =
        encLodUnpacked vs ++ (encLods false lods ++ rest) := by
      simp [encLods]
    have hfl : fuel + (vs :: lods).length = (fuel + lods.length) + 1 := by simp; omega
    rw [hb, hfl, step_lodUnpacked st vs _ _ hv hbody]
    rw [if_neg (by simp [isEmpty_false_of_ne vs hne])]
    rw [ih _ _ fuel (fun x hx => h x (by simp [hx]))]
    simp [List.append_assoc]

theorem step_lodsPacked (lods : List (List Nat)) : ∀ (st : PState) (rest : List Nat)
    (fuel : Nat),
    (∀ vs ∈ lods, vs ≠ [] ∧ (∀ v ∈ vs, v < 128) ∧ vs.length ≤ INTMAX ∧
      (lodBodyPacked vs).length ≤ INTMAX) →
    ParseLoop st (encLods true lods ++ rest) (fuel + lods.length) =
      ParseLoop { st with meta := { st.meta with lod := st.meta.lod ++ lods } } rest fuel := by
  induction lods with
  | nil =>
    intro st rest fuel _
    show ParseLoop st ([] ++ rest) fuel = _
    simp only [List.nil_append, List.append_nil]
  | cons vs lods ih =>
    intro st rest fuel h
    obtain ⟨hne, hsmall, hlen, hbody⟩ := h vs (by simp)
    have hb : encLods true (vs :: lods) ++ rest =
        encLodPacked vs ++ (encLods true lods ++ rest) := by
      simp [encLods]
    have hfl : fuel + (vs :: lods).length = (fuel + lods.length) + 1 := by simp; omega
    rw [hb, hfl, step_lodPacked st vs _ _ hsmall hlen hbody]
    rw [if_neg (by simp [isEmpty_false_of_ne vs hne])]
    rw [ih _ _ fuel (fun x hx => h x (by simp [hx]))]
    simp [List.append_assoc]

/-! ### The serialized field -/

theorem ReadRaw_exact (g : Bool) (p : List Nat) :
    (ReadRaw g p (p.length : Int)).ok = true ∧
      (ReadRaw g p (p.length : Int)).written = p ∧
      (ReadRaw g p (p.length : Int)).rest = [] := by
  cases p with
  | nil => cases g <;> simp [ReadRaw]
  | cons b bs =>
    have h1 : ¬(((b :: bs : List Nat).length : Int) ≤ 0) := by
      simp
    have h2 : ¬(((b :: bs : List Nat).length : Int) -
        ((b :: bs : List Nat).length : Int) > 0) := by
      omega
    cases g with
    | false =>
      unfold ReadRaw
      rw [if_neg (by simp : ¬(false = true))]
      rw [if_neg h1]
      dsimp only
      rw [if_neg h2]
      exact ⟨rfl, rfl, rfl⟩
    | true =>
      unfold ReadRaw
      rw [if_pos rfl]
      rw [if_neg h1]
      dsimp only
      rw [if_neg h2]
      exact ⟨rfl, rfl, rfl⟩

theorem ReadRaw_short (g : Bool) (p : List Nat) (size : Int)
    (h : (p.length : Int) < size) : (ReadRaw g p size).ok = false := by
  cases p with
  | nil =>
    have h0 : ¬(size ≤ 0) := by
      simp at h
      omega
    cases g with
    | false =>
      unfold ReadRaw
      rw [if_neg (by simp : ¬(false = true))]
      rw [if_neg h0]
    | true =>
      unfold ReadRaw
      rw [if_pos rfl]
      rw [if_neg h0]
  | cons b bs =>
    have h0 : ¬(size ≤ 0) := by
      have hge : (0 : Int) ≤ ((b :: bs : List Nat).length : Int) := by positivity
      omega
    have h2 : size - ((b :: bs : List Nat).length : Int) > 0 := by omega
    cases g with
    | false =>
      unfold ReadRaw
      rw [if_neg (by simp : ¬(false = true))]
      rw [if_neg h0]
      dsimp only
      rw [if_pos h2]
    | true =>
      unfold ReadRaw
      rw [if_pos rfl]
      rw [if_neg h0]
      dsimp only
      rw [if_pos h2]

theorem ParseField_serialized_dense (st : PState) (payload : List Nat)
    (hpre : (st.meta.typeRaw = 1 ∨ st.meta.typeRaw = 0) ∧ st.meta.varname ≠ [])
    (hty : st.meta.typeRaw = 0)
    (hlen : payload.length ≤ INTMAX)
    (hscope : st.meta.varname ∈ st.scope)
    (hlod : ¬(st.meta.lod.length < (toI64 st.meta.lodLevel).toNat))
    (hdt : ToTypeIndexOk st.meta.dataType = true) :
    ParseField st 7 2 (encVarint payload.length ++ payload) =
      .next { st with dense := some ⟨st.meta.dims.map i64ToI32,
        st.meta.lod.take (toI64 st.meta.lodLevel).toNat, payload⟩ } [] := by
  have hcp : CopyLodTensorData st payload.length payload =
      .okRes { st with dense := some ⟨st.meta.dims.map i64ToI32,
        st.meta.lod.take (toI64 st.meta.lodLevel).toNat, payload⟩ } [] := by
    obtain ⟨hok, hw, hr⟩ := ReadRaw_exact st.gpu payload
    unfold CopyLodTensorData
    rw [if_pos hscope, if_neg hlod, if_pos hdt]
    dsimp only
    rw [hok, if_pos rfl, hw, hr]
  unfold ParseField
  rw [if_neg (by norm_num : ¬(7 : Nat) = 1)]
  rw [if_neg (by norm_num : ¬(7 : Nat) = 2)]
  rw [if_neg (by norm_num : ¬(7 : Nat) = 3)]
  rw [if_neg (by norm_num : ¬(7 : Nat) = 4)]
  rw [if_neg (by norm_num : ¬(7 : Nat) = 5)]
  rw [if_neg (by norm_num : ¬(7 : Nat) = 6)]
  rw [if_pos rfl]
  rw [if_pos hpre]
  rw [if_neg (by simp : ¬((2 : Nat) ≠ 2))]
  rw [ReadVarintSizeAsInt_enc payload.length hlen payload]
  dsimp only
  rw [if_pos hty, hcp]

theorem step_serialized_dense (st : PState) (payload : List Nat) (fuel : Nat)
    (hpre : (st.meta.typeRaw = 1 ∨ st.meta.typeRaw = 0) ∧ st.meta.varname ≠ [])
    (hty : st.meta.typeRaw = 0)
    (hlen : payload.length ≤ INTMAX)
    (hscope : st.meta.varname ∈ st.scope)
    (hlod : ¬(st.meta.lod.length < (toI64 st.meta.lodLevel).toNat))
    (hdt : ToTypeIndexOk st.meta.dataType = true) :
    ParseLoop st (encSerialized payload) (fuel + 2) =
      some (.ok 0, { st with dense := some ⟨st.meta.dims.map i64ToI32,
        st.meta.lod.take (toI64 st.meta.lodLevel).toNat, payload⟩ }) := by
  have hb : encSerialized payload = 58 :: (encVarint payload.length ++ payload) := rfl
  rw [hb, show fuel + 2 = (fuel + 1) + 1 from rfl,
    ParseLoop_step 58 7 2 (by norm_num) (by norm_num) (by norm_num) (by norm_num)]
  rw [ParseField_serialized_dense st payload hpre hty hlen hscope hlod hdt]
  dsimp only
  exact ParseLoop_nil _ fuel

theorem ParseField_serialized_sr (st : PState) (payload : List Nat)
    (hpre : (st.meta.typeRaw = 1 ∨ st.meta.typeRaw = 0) ∧ st.meta.varname ≠ [])
    (hty : st.meta.typeRaw = 1)
    (hlen : payload.length ≤ INTMAX)
    (hscope : st.meta.varname ∈ st.scope)
    (hdt : ToTypeIndexOk st.meta.dataType = true) :
    ParseField st 7 2 (encVarint payload.length ++ payload) =
      .next { st with slrVal := some ⟨st.meta.dims.map i64ToI32, payload⟩ } [] := by
  have hcp : CopySelectRowsTensorData st payload.length payload =
      .okRes { st with slrVal := some ⟨st.meta.dims.map i64ToI32, payload⟩ } [] := by
    obtain ⟨hok, hw, hr⟩ := ReadRaw_exact st.gpu payload
    unfold CopySelectRowsTensorData
    rw [if_pos hscope, if_pos hdt]
    dsimp only
    rw [hok, if_pos rfl, hw, hr]
  unfold ParseField
  rw [if_neg (by norm_num : ¬(7 : Nat) = 1)]
  rw [if_neg (by norm_num : ¬(7 : Nat) = 2)]
  rw [if_neg (by norm_num : ¬(7 : Nat) = 3)]
  rw [if_neg (by norm_num : ¬(7 : Nat) = 4)]
  rw [if_neg (by norm_num : ¬(7 : Nat) = 5)]
  rw [if_neg (by norm_num : ¬(7 : Nat) = 6)]
  rw [if_pos rfl]
  rw [if_pos hpre]
  rw [if_neg (by simp : ¬((2 : Nat) ≠ 2))]
  rw [ReadVarintSizeAsInt_enc payload.length hlen payload]
  dsimp only
  rw [if_neg (by simp [hty] : ¬st.meta.typeRaw = 0)]
  rw [if_pos hty, hcp]

theorem step_serialized_sr (st : PState) (payload : List Nat) (fuel : Nat)
    (hpre : (st.meta.typeRaw = 1 ∨ st.meta.typeRaw = 0) ∧ st.meta.varname ≠ [])
    (hty : st.meta.typeRaw = 1)
    (hlen : payload.length ≤ INTMAX)
    (hscope : st.meta.varname ∈ st.scope)
    (hdt : ToTypeIndexOk st.meta.dataType = true) :
    ParseLoop st (encSerialized payload) (fuel + 2) =
      some (.ok 0, { st with slrVal := some ⟨st.meta.dims.map i64ToI32, payload⟩ }) := by
  have hb : encSerialized payload = 58 :: (encVarint payload.length ++ payload) := rfl
  rw [hb, show fuel + 2 = (fuel + 1) + 1 from rfl,
    ParseLoop_step 58 7 2 (by norm_num) (by norm_num) (by norm_num) (by norm_num)]
  rw [ParseField_serialized_sr st payload hpre hty hlen hscope hdt]
  dsimp only
  exact ParseLoop_nil _ fuel

/-- A serialized field whose payload is cut short of its declared length makes
the dense materializer fail, and `Parse` returns the serialized field number. -/
theorem step_serialized_dense_short (st : PState) (declared : Nat) (got : List Nat)
    (fuel : Nat)
    (hpre : (st.meta.typeRaw = 1 ∨ st.meta.typeRaw = 0) ∧ st.meta.varname ≠ [])
    (hty : st.meta.typeRaw = 0)
    (hlen : declared ≤ INTMAX)
    (hshort : got.length < declared)
    (hscope : st.meta.varname ∈ st.scope)
    (hlod : ¬(st.meta.lod.length < (toI64 st.meta.lodLevel).toNat))
    (hdt : ToTypeIndexOk st.meta.dataType = true) :
    ParseLoop st (58 :: (encVarint declared ++ got)) (fuel + 1) =
      some (.ok 7, { st with dense := some ⟨st.meta.dims.map i64ToI32,
        st.meta.lod.take (toI64 st.meta.lodLevel).toNat,
        (ReadRaw st.gpu got (declared : Int)).written⟩ }) := by
  have hfail : (ReadRaw st.gpu got (declared : Int)).ok = false :=
    ReadRaw_short st.gpu got declared (by exact_mod_cast hshort)
  have hcp : CopyLodTensorData st declared got =
      .failRes { st with dense := some ⟨st.meta.dims.map i64ToI32,
        st.meta.lod.take (toI64 st.meta.lodLevel).toNat,
        (ReadRaw st.gpu got (declared : Int)).written⟩ } := by
    unfold CopyLodTensorData
    rw [if_pos hscope, if_neg hlod, if_pos hdt]
    dsimp only
    rw [hfail]
    rfl
  rw [ParseLoop_step 58 7 2 (by norm_num) (by norm_num) (by norm_num) (by norm_num)]
  have hpf : ParseField st 7 2 (encVarint declared ++ got) =
      .stop (.ok 7) { st with dense := some ⟨st.meta.dims.map i64ToI32,
        st.meta.lod.take (toI64 st.meta.lodLevel).toNat,
        (ReadRaw st.gpu got (declared : Int)).written⟩ } := by
    unfold ParseField
    rw [if_neg (by norm_num : ¬(7 : Nat) = 1)]
    rw [if_neg (by norm_num : ¬(7 : Nat) = 2)]
    rw [if_neg (by norm_num : ¬(7 : Nat) = 3)]
    rw [if_neg (by norm_num : ¬(7 : Nat) = 4)]
    rw [if_neg (by norm_num : ¬(7 : Nat) = 5)]
    rw [if_neg (by norm_num : ¬(7 : Nat) = 6)]
    rw [if_pos rfl]
    rw [if_pos hpre]
    rw [if_neg (by simp : ¬((2 : Nat) ≠ 2))]
    rw [ReadVarintSizeAsInt_enc declared hlen got]
    dsimp only
    rw [if_pos hty, hcp]
  rw [hpf]

/-! ### Full-message composition -/

theorem toI64_small (v : Nat) (h : v < 2 ^ 63) : toI64 v = (v : Int) := by
  unfold toI64
  have hm : v % 2 ^ 64 = v := Nat.mod_eq_of_lt (by
    have : (2 : Nat) ^ 63 < 2 ^ 64 := by norm_num
    omega)
  rw [hm, if_pos h]

theorem step_meta (packDims packLod : Bool) (st : PState) (name : List Nat)
    (ty dt : Nat) (ds : List Nat) (lods : List (List Nat)) (rest : List Nat)
    (fuel : Nat)
    (hnameLen : name.length < 2 ^ 32)
    (hty32 : ty < 2 ^ 32) (hdt32 : dt < 2 ^ 32)
    (hds : ∀ d ∈ ds, d < 2 ^ 64)
    (hdsP : packDims = true → (∀ d ∈ ds, d < 128) ∧ ds.length ≤ INTMAX)
    (hllv : lods.length < 2 ^ 64)
    (hlodsNE : ∀ vs ∈ lods, vs ≠ [])
    (hlodsV : ∀ vs ∈ lods, ∀ v ∈ vs, v < 2 ^ 64)
    (hlodsU : packLod = false → ∀ vs ∈ lods, (lodBodyUnpacked vs).length ≤ INTMAX)
    (hlodsP : packLod = true → ∀ vs ∈ lods, (∀ v ∈ vs, v < 128) ∧
      vs.length ≤ INTMAX ∧ (lodBodyPacked vs).length ≤ INTMAX) :
    ParseLoop st (encodeMeta packDims packLod name ty dt ds lods ++ rest)
      (((((fuel + lods.length) + 1) + (if packDims then 1 else ds.length)) + 1 + 1) + 1) =
      ParseLoop { st with meta := ⟨name, ty, dt, st.meta.dims ++ ds, lods.length,
        st.meta.lod ++ lods⟩ } rest fuel := by
  have hassoc : encodeMeta packDims packLod name ty dt ds lods ++ rest =
      encVarname name ++ (encType ty ++ (encDataType dt ++
        ((if packDims then encDimsPacked ds else encDimsUnpacked ds) ++
          (encLodLevel lods.length ++ (encLods packLod lods ++ rest))))) := by
    simp [encodeMeta, List.append_assoc]
  rw [hassoc]
  rw [step_varname _ name _ _ hnameLen]
  rw [step_type _ ty _ _ hty32]
  rw [step_dataType _ dt _ _ hdt32]
  cases packDims with
  | false =>
    rw [show (if (false : Bool) = true then encDimsPacked ds else encDimsUnpacked ds)
        = encDimsUnpacked ds from rfl]
    rw [show (if (false : Bool) = true then 1 else ds.length) = ds.length from rfl]
    rw [step_dimsUnpacked ds _ _ _ hds]
    rw [step_lodLevel _ lods.length _ _ hllv]
    cases packLod with
    | false =>
      rw [step_lodsUnpacked lods _ _ fuel
        (fun vs hvs => ⟨hlodsNE vs hvs, hlodsV vs hvs, hlodsU rfl vs hvs⟩)]
    | true =>
      rw [step_lodsPacked lods _ _ fuel
        (fun vs hvs => ⟨hlodsNE vs hvs, (hlodsP rfl vs hvs).1,
          (hlodsP rfl vs hvs).2.1, (hlodsP rfl vs hvs).2.2⟩)]
  | true =>
    rw [show (if (true : Bool) = true then encDimsPacked ds else encDimsUnpacked ds)
        = encDimsPacked ds from rfl]
    rw [show (if (true : Bool) = true then 1 else ds.length) = 1 from rfl]
    obtain ⟨hsm, hln⟩ := hdsP rfl
    rw [step_dimsPacked _ ds _ _ hsm hln]
    rw [step_lodLevel _ lods.length _ _ hllv]
    cases packLod with
    | false =>
      rw [step_lodsUnpacked lods _ _ fuel
        (fun vs hvs => ⟨hlodsNE vs hvs, hlodsV vs hvs, hlodsU rfl vs hvs⟩)]
    | true =>
      rw [step_lodsPacked lods _ _ fuel
        (fun vs hvs => ⟨hlodsNE vs hvs, (hlodsP rfl vs hvs).1,
          (hlodsP rfl vs hvs).2.1, (hlodsP rfl vs hvs).2.2⟩)]

theorem parse_encodeMsg (packDims packLod : Bool) (scope : List (List Nat)) (g : Bool)
    (name : List Nat) (ty dt : Nat) (ds : List Nat) (lods : List (List Nat))
    (payload : List Nat)
    (hname : name ≠ []) (hnameLen : name.length < 2 ^ 32) (hscope : name ∈ scope)
    (hty : ty = 0 ∨ ty = 1) (hdt : dt ≤ 6)
    (hds : ∀ d ∈ ds, d < 2 ^ 64)
    (hdsP : packDims = true → (∀ d ∈ ds, d < 128) ∧ ds.length ≤ INTMAX)
    (hlodsNE : ∀ vs ∈ lods, vs ≠ [])
    (hlodsV : ∀ vs ∈ lods, ∀ v ∈ vs, v < 2 ^ 64)
    (hlodsU : packLod = false → ∀ vs ∈ lods, (lodBodyUnpacked vs).length ≤ INTMAX)
    (hlodsP : packLod = true → ∀ vs ∈ lods, (∀ v ∈ vs, v < 128) ∧
      vs.length ≤ INTMAX ∧ (lodBodyPacked vs).length ≤ INTMAX)
    (hll : lods.length < 2 ^ 63)
    (hpay : payload.length ≤ INTMAX) :
    Parse (initSt scope g) (encodeMsg packDims packLod name ty dt ds lods payload) =
      some (.ok 0, finalSt scope g name ty dt ds lods payload) := by
  have hty32 : ty < 2 ^ 32 := by
    rcases hty with rfl | rfl <;> norm_num
  have hdt32 : dt < 2 ^ 32 := by
    have : (6 : Nat) < 2 ^ 32 := by norm_num
    omega
  have hllv : lods.length < 2 ^ 64 := by
    have : (2 : Nat) ^ 63 < 2 ^ 64 := by norm_num
    omega
  have hdtok : ToTypeIndexOk dt = true := by
    simp only [ToTypeIndexOk]
    exact decide_eq_true hdt
  apply Parse_of_loop _ _ _
    (((((2 + lods.length) + 1) + (if packDims then 1 else ds.length)) + 1 + 1) + 1)
  have hmsg : encodeMsg packDims packLod name ty dt ds lods payload =
      encodeMeta packDims packLod name ty dt ds lods ++ encSerialized payload := rfl
  rw [hmsg]
  rw [step_meta packDims packLod (initSt scope g) name ty dt ds lods
    (encSerialized payload) 2 hnameLen hty32 hdt32 hds hdsP hllv hlodsNE hlodsV
    hlodsU hlodsP]
  simp only [initSt]
  rcases hty with rfl | rfl
  · rw [show (2 : Nat) = 0 + 2 from rfl]
    rw [step_serialized_dense _ payload 0 ⟨Or.inr rfl, by simpa using hname⟩ rfl hpay
      (by simpa using hscope)
      (by
        rw [toI64_small lods.length hll]
        simp)
      (by simpa using hdtok)]
    simp [finalSt, toI64_small lods.length hll]
  · rw [show (2 : Nat) = 0 + 2 from rfl]
    rw [step_serialized_sr _ payload 0 ⟨Or.inl rfl, by simpa using hname⟩ rfl hpay
      (by simpa using hscope) (by simpa using hdtok)]
    simp [finalSt]

/-! ### Claim theorems -/

/-- C3 (code bug): the packed decoder reads a COUNT of varints equal to the
declared byte length instead of consuming the declared byte length, so the
same dims value 128 decodes fine unpacked (bytes 32, 0x80, 0x01 give outcome
Success with dims = ⟦128⟧) but its section-6 packed encoding (tag 34, byte
length 2, block 0x80, 0x01) makes the decoder demand two varints, run off the
end, and return MalformedField for the dims field. -/
theorem C3_packed_count_bug :
    Parse (initSt [] false) [32, 128, 1] =
      some (.ok 0, { scope := [], gpu := false, meta := ⟨[], 0, 0, [128], 0, []⟩ }) ∧
    Parse (initSt [] false) [34, 2, 128, 1] =
      some (.ok 4, { scope := [], gpu := false, meta := ⟨[], 0, 0, [128], 0, []⟩ }) := by
  decide

/-- C4 (confirmed): whenever the loop meets a serialized (field 7) or rows
(field 8) tag, with any wire type, while the metadata precondition of the
PADDLE_ENFORCE (known representation kind and non-empty varname) does not
hold, the decode aborts on the fatal path, so such a message never reaches
the Success outcome. -/
theorem C4_field_order (st : PState) (wt : Nat) (bytes : List Nat) (fuel : Nat)
    (hw : wt < 8)
    (hpre : ¬((st.meta.typeRaw = 1 ∨ st.meta.typeRaw = 0) ∧ st.meta.varname ≠ [])) :
    ParseLoop st ((56 + wt) :: bytes) (fuel + 1) = some (.fatal, st) ∧
    ParseLoop st ((64 + wt) :: bytes) (fuel + 1) = some (.fatal, st) := by
  constructor
  · rw [ParseLoop_step (56 + wt) 7 wt (by omega) (by omega) (by omega) (by omega)]
    have hpf : ParseField st 7 wt bytes = .stop .fatal st := by
      unfold ParseField
      rw [if_neg (by norm_num : ¬(7 : Nat) = 1)]
      rw [if_neg (by norm_num : ¬(7 : Nat) = 2)]
      rw [if_neg (by norm_num : ¬(7 : Nat) = 3)]
      rw [if_neg (by norm_num : ¬(7 : Nat) = 4)]
      rw [if_neg (by norm_num : ¬(7 : Nat) = 5)]
      rw [if_neg (by norm_num : ¬(7 : Nat) = 6)]
      rw [if_pos rfl]
      rw [if_neg hpre]
    rw [hpf]
  · rw [ParseLoop_step (64 + wt) 8 wt (by omega) (by omega) (by omega) (by omega)]
    have hpf : ParseField st 8 wt bytes = .stop .fatal st := by
      unfold ParseField
      rw [if_neg (by norm_num : ¬(8 : Nat) = 1)]
      rw [if_neg (by norm_num : ¬(8 : Nat) = 2)]
      rw [if_neg (by norm_num : ¬(8 : Nat) = 3)]
      rw [if_neg (by norm_num : ¬(8 : Nat) = 4)]
      rw [if_neg (by norm_num : ¬(8 : Nat) = 5)]
      rw [if_neg (by norm_num : ¬(8 : Nat) = 6)]
      rw [if_neg (by norm_num : ¬(8 : Nat) = 7)]
      rw [if_pos rfl]
      rw [if_neg hpre]
    rw [hpf]

/-- C4 witness: a message starting with the serialized tag while no metadata
has been accumulated aborts on the fatal path. -/
theorem C4_field_order_witness :
    ParseLoop (initSt [] false) ((56 + 2) :: []) (0 + 1) =
      some (.fatal, initSt [] false) ∧
    ParseLoop (initSt [] false) ((64 + 2) :: []) (0 + 1) =
      some (.fatal, initSt [] false) :=
  C4_field_order (initSt [] false) 2 [] 0 (by decide) (by decide)

/-- C5 (code bug): a lod field (tag 50) declaring a 2-byte sub-region whose
body starts with an explicit zero tag makes ParseLodData return early with
the sub-region not fully consumed; DecrementRecursionDepthAndPopLimit then
fails, and the source executes `return false;` inside the int-returning
Parse, which converts to the int 0 — the Success code — with the rest of the
message ignored. -/
theorem C5_pop_limit_bug :
    Parse (initSt [] false) [50, 2, 0, 0] = some (.ok 0, initSt [] false) := by
  decide

/-- C6 (confirmed): whenever the destination place is GPU memory and ReadRaw
returns true, its event trace ends with the explicit device synchronization
(`gpu_dev_ctx.Wait()`), and everything before it is a host-to-device chunk
copy — no transfer is issued after the wait, so none is in flight when Parse
can go on to report Success. -/
theorem C6_device_sync (bytes : List Nat) (size : Int)
    (h : (ReadRaw true bytes size).ok = true) :
    ∃ pre, (ReadRaw true bytes size).trace = pre ++ [CopyEvent.deviceWait] ∧
      ∀ e ∈ pre, ∃ n, e = CopyEvent.h2dCopy n := by
  unfold ReadRaw at h ⊢
  rw [if_pos rfl] at h ⊢
  by_cases hsz : size ≤ 0
  · rw [if_pos hsz]
    exact ⟨[], rfl, by simp⟩
  · rw [if_neg hsz] at h ⊢
    cases bytes with
    | nil => simp at h
    | cons b bs =>
      dsimp only at h ⊢
      by_cases hbig : size - ((b :: bs : List Nat).length : Int) > 0
      · rw [if_pos hbig] at h
        simp at h
      · rw [if_neg hbig]
        refine ⟨[CopyEvent.h2dCopy (b :: bs).length], rfl, ?_⟩
        intro e he
        simp at he
        exact ⟨_, he⟩

/-- C6 witness: a one-byte device-destined copy that succeeds has its
transfer followed by the device wait. -/
theorem C6_device_sync_witness :
    ∃ pre, (ReadRaw true [5] 1).trace = pre ++ [CopyEvent.deviceWait] ∧
      ∀ e ∈ pre, ∃ n, e = CopyEvent.h2dCopy n :=
  C6_device_sync [5] 1 (by decide)

/-- C7 (code bug): a well-formed message whose varname resolves to no
variable in the scope reaches CopyLodTensorData, whose unchecked
`scope_->FindVar` result is dereferenced: the decode is a crash (undefined
behaviour), not a returned failure outcome. -/
theorem C7_notfound_crash :
    Parse (initSt [] false) [10, 1, 65, 16, 0, 58, 1, 99] =
      some (.crash, { scope := [], gpu := false, meta := ⟨[65], 0, 0, [], 0, []⟩ }) := by
  decide

/-- C8 counterexample: a serialized field read with wire type 0 (not the
length-delimited type defined for it) as the first field of a message takes
the fatal PreconditionViolation path, not the MalformedField(7) outcome the
claim requires for every recognized field with a wrong wire type. -/
theorem C8_counterexample :
    Parse (initSt [] false) [56] = some (.fatal, initSt [] false) := by
  decide

/-- C8 (amended): a recognized top-level field read with a wire type other
than the one(s) defined for it yields MalformedField carrying exactly that
field's number for fields 1-6 (varname, type, data_type, dims, lod_level,
lod) unconditionally, and for serialized (7) and rows (8) whenever the
metadata precondition holds when the tag is met (otherwise the fatal
precondition path precedes the wire-type check); a length-prefix varint
exceeding INT_MAX yields MalformedField with the field's number for the
packed dims block, lod, serialized and rows. -/
theorem C8_malformed_field (st : PState) (wt : Nat) (bytes : List Nat) (fuel : Nat)
    (hw : wt < 8) :
    (wt ≠ 2 → ParseLoop st ((8 + wt) :: bytes) (fuel + 1) = some (.ok 1, st)) ∧
    (wt ≠ 0 → ParseLoop st ((16 + wt) :: bytes) (fuel + 1) = some (.ok 2, st)) ∧
    (wt ≠ 0 → ParseLoop st ((24 + wt) :: bytes) (fuel + 1) = some (.ok 3, st)) ∧
    (wt ≠ 0 → wt ≠ 2 → ParseLoop st ((32 + wt) :: bytes) (fuel + 1) = some (.ok 4, st)) ∧
    (wt ≠ 0 → ParseLoop st ((40 + wt) :: bytes) (fuel + 1) = some (.ok 5, st)) ∧
    (wt ≠ 2 → ParseLoop st ((48 + wt) :: bytes) (fuel + 1) = some (.ok 6, st)) ∧
    ((st.meta.typeRaw = 1 ∨ st.meta.typeRaw = 0) ∧ st.meta.varname ≠ [] → wt ≠ 2 →
      ParseLoop st ((56 + wt) :: bytes) (fuel + 1) = some (.ok 7, st)) ∧
    ((st.meta.typeRaw = 1 ∨ st.meta.typeRaw = 0) ∧ st.meta.varname ≠ [] → wt ≠ 2 →
      ParseLoop st ((64 + wt) :: bytes) (fuel + 1) = some (.ok 8, st)) ∧
    (∀ v : Nat, INTMAX < v → v < 2 ^ 64 →
      (ParseLoop st (34 :: (encVarint v ++ bytes)) (fuel + 1) = some (.ok 4, st)) ∧
      (ParseLoop st (50 :: (encVarint v ++ bytes)) (fuel + 1) = some (.ok 6, st)) ∧
      ((st.meta.typeRaw = 1 ∨ st.meta.typeRaw = 0) ∧ st.meta.varname ≠ [] →
        ParseLoop st (58 :: (encVarint v ++ bytes)) (fuel + 1) = some (.ok 7, st)) ∧
      ((st.meta.typeRaw = 1 ∨ st.meta.typeRaw = 0) ∧ st.meta.varname ≠ [] →
        ParseLoop st (66 :: (encVarint v ++ bytes)) (fuel + 1) = some (.ok 8, st))) := by
  refine ⟨?_, ?_, ?_, ?_, ?_, ?_, ?_, ?_, ?_⟩
  · intro h2
    rw [ParseLoop_step (8 + wt) 1 wt (by omega) (by omega) (by omega) (by omega)]
    have hpf : ParseField st 1 wt bytes = .stop (.ok 1) st := by
      unfold ParseField
      rw [if_pos rfl, if_pos h2]
    rw [hpf]
  · intro h0
    rw [ParseLoop_step (16 + wt) 2 wt (by omega) (by omega) (by omega) (by omega)]
    have hpf : ParseField st 2 wt bytes = .stop (.ok 2) st := by
      unfold ParseField
      rw [if_neg (by norm_num : ¬(2 : Nat) = 1), if_pos rfl, if_pos h0]
    rw [hpf]
  · intro h0
    rw [ParseLoop_step (24 + wt) 3 wt (by omega) (by omega) (by omega) (by omega)]
    have hpf : ParseField st 3 wt bytes = .stop (.ok 3) st := by
      unfold ParseField
      rw [if_neg (by norm_num : ¬(3 : Nat) = 1), if_neg (by norm_num : ¬(3 : Nat) = 2),
        if_pos rfl, if_pos h0]
    rw [hpf]
  · intro h0 h2
    rw [ParseLoop_step (32 + wt) 4 wt (by omega) (by omega) (by omega) (by omega)]
    have hpf : ParseField st 4 wt bytes = .stop (.ok 4) st := by
      unfold ParseField
      rw [if_neg (by norm_num : ¬(4 : Nat) = 1), if_neg (by norm_num : ¬(4 : Nat) = 2),
        if_neg (by norm_num : ¬(4 : Nat) = 3), if_pos rfl, if_neg h0, if_neg h2]
    rw [hpf]
  · intro h0
    rw [ParseLoop_step (40 + wt) 5 wt (by omega) (by omega) (by omega) (by omega)]
    have hpf : ParseField st 5 wt bytes = .stop (.ok 5) st := by
      unfold ParseField
      rw [if_neg (by norm_num : ¬(5 : Nat) = 1), if_neg (by norm_num : ¬(5 : Nat) = 2),
        if_neg (by norm_num : ¬(5 : Nat) = 3), if_neg (by norm_num : ¬(5 : Nat) = 4),
        if_pos rfl, if_pos h0]
    rw [hpf]
  · intro h2
    rw [ParseLoop_step (48 + wt) 6 wt (by omega) (by omega) (by omega) (by omega)]
    have hpf : ParseField st 6 wt bytes = .stop (.ok 6) st := by
      unfold ParseField
      rw [if_neg (by norm_num : ¬(6 : Nat) = 1), if_neg (by norm_num : ¬(6 : Nat) = 2),
        if_neg (by norm_num : ¬(6 : Nat) = 3), if_neg (by norm_num : ¬(6 : Nat) = 4),
        if_neg (by norm_num : ¬(6 : Nat) = 5), if_pos rfl, if_pos h2]
    rw [hpf]
  · intro hpre h2
    rw [ParseLoop_step (56 + wt) 7 wt (by omega) (by omega) (by omega) (by omega)]
    have hpf : ParseField st 7 wt bytes = .stop (.ok 7) st := by
      unfold ParseField
      rw [if_neg (by norm_num : ¬(7 : Nat) = 1), if_neg (by norm_num : ¬(7 : Nat) = 2),
        if_neg (by norm_num : ¬(7 : Nat) = 3), if_neg (by norm_num : ¬(7 : Nat) = 4),
        if_neg (by norm_num : ¬(7 : Nat) = 5), if_neg (by norm_num : ¬(7 : Nat) = 6),
        if_pos rfl, if_pos hpre, if_pos h2]
    rw [hpf]
  · intro hpre h2
    rw [ParseLoop_step (64 + wt) 8 wt (by omega) (by omega) (by omega) (by omega)]
    have hpf : ParseField st 8 wt bytes = .stop (.ok 8) st := by
      unfold ParseField
      rw [if_neg (by norm_num : ¬(8 : Nat) = 1), if_neg (by norm_num : ¬(8 : Nat) = 2),
        if_neg (by norm_num : ¬(8 : Nat) = 3), if_neg (by norm_num : ¬(8 : Nat) = 4),
        if_neg (by norm_num : ¬(8 : Nat) = 5), if_neg (by norm_num : ¬(8 : Nat) = 6),
        if_neg (by norm_num : ¬(8 : Nat) = 7), if_pos rfl, if_pos hpre, if_pos h2]
    rw [hpf]
  · intro v hlo hhi
    have hsz : ReadVarintSizeAsInt (encVarint v ++ bytes) = (none, bytes) :=
      ReadVarintSizeAsInt_enc_big v hlo hhi bytes
    refine ⟨?_, ?_, ?_, ?_⟩
    · rw [ParseLoop_step 34 4 2 (by omega) (by omega) (by omega) (by omega)]
      have hpf : ParseField st 4 2 (encVarint v ++ bytes) = .stop (.ok 4) st := by
        unfold ParseField
        rw [if_neg (by norm_num : ¬(4 : Nat) = 1), if_neg (by norm_num : ¬(4 : Nat) = 2),
          if_neg (by norm_num : ¬(4 : Nat) = 3), if_pos rfl,
          if_neg (by norm_num : ¬(2 : Nat) = 0), if_pos rfl, hsz]
      rw [hpf]
    · rw [ParseLoop_step 50 6 2 (by omega) (by omega) (by omega) (by omega)]
      have hpf : ParseField st 6 2 (encVarint v ++ bytes) = .stop (.ok 6) st := by
        unfold ParseField
        rw [if_neg (by norm_num : ¬(6 : Nat) = 1), if_neg (by norm_num : ¬(6 : Nat) = 2),
          if_neg (by norm_num : ¬(6 : Nat) = 3), if_neg (by norm_num : ¬(6 : Nat) = 4),
          if_neg (by norm_num : ¬(6 : Nat) = 5), if_pos rfl,
          if_neg (by simp : ¬((2 : Nat) ≠ 2)), hsz]
      rw [hpf]
    · intro hpre
      rw [ParseLoop_step 58 7 2 (by omega) (by omega) (by omega) (by omega)]
      have hpf : ParseField st 7 2 (encVarint v ++ bytes) = .stop (.ok 7) st := by
        unfold ParseField
        rw [if_neg (by norm_num : ¬(7 : Nat) = 1), if_neg (by norm_num : ¬(7 : Nat) = 2),
          if_neg (by norm_num : ¬(7 : Nat) = 3), if_neg (by norm_num : ¬(7 : Nat) = 4),
          if_neg (by norm_num : ¬(7 : Nat) = 5), if_neg (by norm_num : ¬(7 : Nat) = 6),
          if_pos rfl, if_pos hpre, if_neg (by simp : ¬((2 : Nat) ≠ 2)), hsz]
      rw [hpf]
    · intro hpre
      rw [ParseLoop_step 66 8 2 (by omega) (by omega) (by omega) (by omega)]
      have hpf : ParseField st 8 2 (encVarint v ++ bytes) = .stop (.ok 8) st := by
        unfold ParseField
        rw [if_neg (by norm_num : ¬(8 : Nat) = 1), if_neg (by norm_num : ¬(8 : Nat) = 2),
          if_neg (by norm_num : ¬(8 : Nat) = 3), if_neg (by norm_num : ¬(8 : Nat) = 4),
          if_neg (by norm_num : ¬(8 : Nat) = 5), if_neg (by norm_num : ¬(8 : Nat) = 6),
          if_neg (by norm_num : ¬(8 : Nat) = 7), if_pos rfl, if_pos hpre,
          if_neg (by simp : ¬((2 : Nat) ≠ 2)), hsz]
      rw [hpf]

/-- C8 witness: a varname field read with wire type 0 yields the int 1, the
varname field's number. -/
theorem C8_malformed_field_witness :
    ParseLoop (initSt [] false) ((8 + 0) :: []) (0 + 1) =
      some (.ok 1, initSt [] false) :=
  (C8_malformed_field (initSt [] false) 0 [] 0 (by decide)).1 (by decide)

/-- C9 counterexample: a message consisting of one lod field whose sub-region
decodes to the empty sequence parses to Success with an EMPTY offset table —
the lod field present in the message contributes no level, contradicting one
inner sequence per lod field. -/
theorem C9_counterexample :
    Parse (initSt [] false) [50, 0] = some (.ok 0, initSt [] false) ∧
    (initSt [] false).meta.lod.length = 0 := by
  decide

/-- C9 (amended): each lod field contributes its decoded sequence as one
offset-table level, appended in message order, EXCEPT that a lod field whose
sub-message decodes to the empty sequence is dropped and contributes no
level. -/
theorem C9_one_level_per_lod (st : PState) (vs rest : List Nat) (fuel : Nat)
    (hv : ∀ v ∈ vs, v < 2 ^ 64) (hbody : (lodBodyUnpacked vs).length ≤ INTMAX) :
    ParseLoop st (encLodUnpacked vs ++ rest) (fuel + 1) =
      ParseLoop (if vs.isEmpty then st
        else { st with meta := { st.meta with lod := st.meta.lod ++ [vs] } }) rest fuel :=
  step_lodUnpacked st vs rest fuel hv hbody

/-- C9 witness: a non-empty level is appended as one inner sequence. -/
theorem C9_one_level_per_lod_witness :
    ParseLoop (initSt [] false) (encLodUnpacked [3] ++ []) (0 + 1) =
      ParseLoop (if ([3] : List Nat).isEmpty then initSt [] false
        else { initSt [] false with meta :=
          { (initSt [] false).meta with lod := (initSt [] false).meta.lod ++ [[3]] } }) [] 0 :=
  C9_one_level_per_lod (initSt [] false) [3] [] 0 (by decide) (by decide)

/-- C1 counterexample: the metadata with name 65, dense kind, element type 5,
shape ⟦128⟧, empty offset table, payload 1, 2, 3, encoded per section 6 with
the dims PACKED (dims value 128 needs a two-byte varint, so the packed block
declares byte length 2), decodes to Success with dims ⟦128, 40⟧ — the packed
loop consumed the lod_level tag byte 40 as a second varint — and with an
untouched destination: the metadata is not reproduced and the payload is
never copied. -/
theorem C1_counterexample :
    Parse (initSt [[65]] false) (encodeMsg true false [65] 0 5 [128] [] [1, 2, 3]) =
      some (.ok 0, { scope := [[65]], gpu := false,
                     meta := ⟨[65], 0, 5, [128, 40], 0, []⟩ }) := by
  decide

/-- C1 (amended): encoding metadata and payload per section 6 and parsing
reproduces the metadata verbatim and copies the payload byte-identically into
the destination of the declared kind, with outcome Success, for unpacked dims
and lod encodings of arbitrary 64-bit values and for packed encodings when
every packed value fits one varint byte (below 128; the decoder reads a
packed block as a count of varints equal to the declared byte length), given
that the name is non-empty and resolvable, the kind is dense (0) or
selected-rows (1), the element type is in the enum, every offset-table level
is non-empty (an empty level is dropped and the materializer then crashes on
the lod_level/lod mismatch), and the declared lengths fit the signed 32-bit
range. -/
theorem C1_round_trip (packDims packLod : Bool) (scope : List (List Nat)) (g : Bool)
    (name : List Nat) (ty dt : Nat) (ds : List Nat) (lods : List (List Nat))
    (payload : List Nat)
    (hname : name ≠ []) (hnameLen : name.length < 2 ^ 32) (hscope : name ∈ scope)
    (hty : ty = 0 ∨ ty = 1) (hdt : dt ≤ 6)
    (hds : ∀ d ∈ ds, d < 2 ^ 64)
    (hdsP : packDims = true → (∀ d ∈ ds, d < 128) ∧ ds.length ≤ INTMAX)
    (hlodsNE : ∀ vs ∈ lods, vs ≠ [])
    (hlodsV : ∀ vs ∈ lods, ∀ v ∈ vs, v < 2 ^ 64)
    (hlodsU : packLod = false → ∀ vs ∈ lods, (lodBodyUnpacked vs).length ≤ INTMAX)
    (hlodsP : packLod = true → ∀ vs ∈ lods, (∀ v ∈ vs, v < 128) ∧
      vs.length ≤ INTMAX ∧ (lodBodyPacked vs).length ≤ INTMAX)
    (hll : lods.length < 2 ^ 63)
    (hpay : payload.length ≤ INTMAX) :
    Parse (initSt scope g) (encodeMsg packDims packLod name ty dt ds lods payload) =
      some (.ok 0, finalSt scope g name ty dt ds lods payload) ∧
    (finalSt scope g name ty dt ds lods payload).meta =
      ⟨name, ty, dt, ds, lods.length, lods⟩ ∧
    (ty = 0 → (finalSt scope g name ty dt ds lods payload).dense =
      some ⟨ds.map i64ToI32, lods, payload⟩) ∧
    (ty = 1 → (finalSt scope g name ty dt ds lods payload).slrVal =
      some ⟨ds.map i64ToI32, payload⟩) := by
  refine ⟨parse_encodeMsg packDims packLod scope g name ty dt ds lods payload hname
    hnameLen hscope hty hdt hds hdsP hlodsNE hlodsV hlodsU hlodsP hll hpay, rfl, ?_, ?_⟩
  · intro h0
    simp [finalSt, h0]
  · intro h1
    simp [finalSt, h1]

/-- C1 witness: a concrete dense round trip with packed dims and one packed
offset-table level. -/
theorem C1_round_trip_witness :
    Parse (initSt [[65]] false) (encodeMsg true true [65] 0 5 [2, 3] [[0, 2]] [9, 8, 7]) =
      some (.ok 0, finalSt [[65]] false [65] 0 5 [2, 3] [[0, 2]] [9, 8, 7]) ∧
    (finalSt [[65]] false [65] 0 5 [2, 3] [[0, 2]] [9, 8, 7]).meta =
      ⟨[65], 0, 5, [2, 3], 1, [[0, 2]]⟩ ∧
    ((0 : Nat) = 0 → (finalSt [[65]] false [65] 0 5 [2, 3] [[0, 2]] [9, 8, 7]).dense =
      some ⟨[2, 3].map i64ToI32, [[0, 2]], [9, 8, 7]⟩) ∧
    ((0 : Nat) = 1 → (finalSt [[65]] false [65] 0 5 [2, 3] [[0, 2]] [9, 8, 7]).slrVal =
      some ⟨[2, 3].map i64ToI32, [9, 8, 7]⟩) := by
  have h := C1_round_trip true true [[65]] false [65] 0 5 [2, 3] [[0, 2]] [9, 8, 7]
    (by decide) (by decide) (by decide) (by decide) (by decide) (by decide)
    (by decide) (by decide) (by decide) (by decide) (by decide) (by decide) (by decide)
  exact ⟨h.1, by decide, h.2.2.1, h.2.2.2⟩

/-- C2 counterexample: the two-field message varname 65 then type 0 is valid
(it decodes to Success), and its proper prefix ending after the varname field
also decodes to Success — truncating a valid message at a field boundary does
not yield a non-Success outcome. -/
theorem C2_counterexample :
    Parse (initSt [] false) [10, 1, 65, 16, 0] =
      some (.ok 0, { scope := [], gpu := false, meta := ⟨[65], 0, 0, [], 0, []⟩ }) ∧
    Parse (initSt [] false) [10, 1, 65] =
      some (.ok 0, { scope := [], gpu := false, meta := ⟨[65], 0, 0, [], 0, []⟩ }) := by
  decide

/-- C2 (amended): truncation is not a distinct detected condition — a prefix
of a valid message ending at a top-level field boundary decodes as a complete
(shorter) message with outcome Success, the wire format carrying no overall
length; but a prefix ending strictly inside the serialized field's
declared-length payload fails, with Parse returning the serialized field's
number (the cursor is exhausted before the declared byte count is consumed),
never Success and never a crash. -/
theorem C2_truncation (scope : List (List Nat)) (g : Bool) (name : List Nat)
    (dt : Nat) (ds : List Nat) (lods : List (List Nat)) (payload : List Nat)
    (hname : name ≠ []) (hnameLen : name.length < 2 ^ 32) (hscope : name ∈ scope)
    (hdt : dt ≤ 6)
    (hds : ∀ d ∈ ds, d < 2 ^ 64)
    (hlodsNE : ∀ vs ∈ lods, vs ≠ [])
    (hlodsV : ∀ vs ∈ lods, ∀ v ∈ vs, v < 2 ^ 64)
    (hlodsU : ∀ vs ∈ lods, (lodBodyUnpacked vs).length ≤ INTMAX)
    (hll : lods.length < 2 ^ 63)
    (hpay : payload.length ≤ INTMAX) :
    (Parse (initSt scope g) (encodeMeta false false name 0 dt ds lods) =
      some (.ok 0, { scope := scope, gpu := g,
                     meta := ⟨name, 0, dt, ds, lods.length, lods⟩ })) ∧
    (∀ c, c < payload.length → ∃ stx,
      Parse (initSt scope g) (encodeMeta false false name 0 dt ds lods ++
        (58 :: (encVarint payload.length ++ payload.take c))) =
        some (.ok 7, stx)) := by
  have hdt32 : dt < 2 ^ 32 := by
    have : (6 : Nat) < 2 ^ 32 := by norm_num
    omega
  have hllv : lods.length < 2 ^ 64 := by
    have : (2 : Nat) ^ 63 < 2 ^ 64 := by norm_num
    omega
  have hdtok : ToTypeIndexOk dt = true := by
    simp only [ToTypeIndexOk]
    exact decide_eq_true hdt
  constructor
  · apply Parse_of_loop _ _ _ (((((1 + lods.length) + 1) + ds.length) + 1 + 1) + 1)
    rw [show encodeMeta false false name 0 dt ds lods =
      encodeMeta false false name 0 dt ds lods ++ [] from (List.append_nil _).symm]
    rw [show (((((1 + lods.length) + 1) + ds.length) + 1 + 1) + 1 : Nat) =
      ((((1 + lods.length) + 1) + (if (false : Bool) = true then 1 else ds.length))
        + 1 + 1) + 1 from rfl]
    rw [step_meta false false (initSt scope g) name 0 dt ds lods [] 1 hnameLen
      (by norm_num) hdt32 hds (by simp) hllv hlodsNE hlodsV (fun _ => hlodsU) (by simp)]
    rw [show (1 : Nat) = 0 + 1 from rfl, ParseLoop_nil]
    rfl
  · intro c hc
    obtain ⟨stx, hstx⟩ : ∃ stx, ParseLoop (initSt scope g)
        (encodeMeta false false name 0 dt ds lods ++
          (58 :: (encVarint payload.length ++ payload.take c)))
        (((((1 + lods.length) + 1) + ds.length) + 1 + 1) + 1) = some (.ok 7, stx) := by
      rw [show (((((1 + lods.length) + 1) + ds.length) + 1 + 1) + 1 : Nat) =
        ((((1 + lods.length) + 1) + (if (false : Bool) = true then 1 else ds.length))
          + 1 + 1) + 1 from rfl]
      rw [step_meta false false (initSt scope g) name 0 dt ds lods _ 1 hnameLen
        (by norm_num) hdt32 hds (by simp) hllv hlodsNE hlodsV (fun _ => hlodsU) (by simp)]
      simp only [initSt]
      rw [show (1 : Nat) = 0 + 1 from rfl]
      rw [step_serialized_dense_short _ payload.length (payload.take c) 0
        ⟨Or.inr rfl, by simpa using hname⟩ rfl hpay
        (by
          simp only [List.length_take]
          omega)
        (by simpa using hscope)
        (by
          rw [toI64_small lods.length hll]
          simp)
        (by simpa using hdtok)]
      exact ⟨_, rfl⟩
    exact ⟨stx, Parse_of_loop _ _ _ _ hstx⟩

/-- C2 witness: a cut one byte into a two-byte payload yields the serialized
field number. -/
theorem C2_truncation_witness :
    ∃ stx, Parse (initSt [[65]] false) (encodeMeta false false [65] 0 5 [2] [] ++
      (58 :: (encVarint ([9, 8] : List Nat).length ++ ([9, 8] : List Nat).take 1))) =
      some (.ok 7, stx) :=
  (C2_truncation [[65]] false [65] 5 [2] [] [9, 8] (by decide) (by decide) (by decide)
    (by decide) (by decide) (by decide) (by decide) (by decide) (by decide)
    (by decide)).2 1 (by decide)

/-- C10 (confirmed, implicit claim): Parse checks no consistency between the
serialized field's declared byte length and the byte size implied by the
accumulated dims and data_type — under the same conditions as the dense round
trip but with the payload length explicitly DIFFERENT from the product of the
dimension sizes times the element byte width, the materializer still resolves
the destination, reshapes it to the narrowed dims, copies exactly the
declared number of bytes, and Parse returns Success. -/
theorem C10_no_size_check (scope : List (List Nat)) (g : Bool) (name : List Nat)
    (dt : Nat) (ds : List Nat) (lods : List (List Nat)) (payload : List Nat)
    (hname : name ≠ []) (hnameLen : name.length < 2 ^ 32) (hscope : name ∈ scope)
    (hdt : dt ≤ 6)
    (hds : ∀ d ∈ ds, d < 2 ^ 64)
    (hlodsNE : ∀ vs ∈ lods, vs ≠ [])
    (hlodsV : ∀ vs ∈ lods, ∀ v ∈ vs, v < 2 ^ 64)
    (hlodsU : ∀ vs ∈ lods, (lodBodyUnpacked vs).length ≤ INTMAX)
    (hll : lods.length < 2 ^ 63)
    (hpay : payload.length ≤ INTMAX)
    (hmismatch : payload.length ≠ elemSize dt * ds.prod) :
    Parse (initSt scope g) (encodeMsg false false name 0 dt ds lods payload) =
      some (.ok 0, finalSt scope g name 0 dt ds lods payload) ∧
    (finalSt scope g name 0 dt ds lods payload).dense =
      some ⟨ds.map i64ToI32, lods, payload⟩ := by
  refine ⟨parse_encodeMsg false false scope g name 0 dt ds lods payload hname
    hnameLen hscope (Or.inl rfl) hdt hds (by simp) hlodsNE hlodsV
    (fun _ => hlodsU) (by simp) hll hpay, ?_⟩
  simp [finalSt]

/-- C10 witness: element type 5 (a 4-byte scalar) with shape ⟦2, 3⟧ implies
24 bytes, yet a 3-byte payload decodes to Success and 3 bytes are copied. -/
theorem C10_no_size_check_witness :
    Parse (initSt [[65]] false) (encodeMsg false false [65] 0 5 [2, 3] [] [9, 8, 7]) =
      some (.ok 0, finalSt [[65]] false [65] 0 5 [2, 3] [] [9, 8, 7]) ∧
    (finalSt [[65]] false [65] 0 5 [2, 3] [] [9, 8, 7]).dense =
      some ⟨[2, 3].map i64ToI32, [], [9, 8, 7]⟩ :=
  C10_no_size_check [[65]] false [65] 5 [2, 3] [] [9, 8, 7] (by decide) (by decide)
    (by decide) (by decide) (by decide) (by decide) (by decide) (by decide)
    (by decide) (by decide) (by decide)

end VarResp
